import Mathlib

/-
Verification of the ephcha relay backend (src/backend.py) against its
natural-language specification.

The Python source is shallowly embedded: Python dicts (which preserve
insertion order) become association lists over `String` keys, `bytes`
become `List Nat` with entries `< 256`, `float`/`datetime` timestamps
become `ℚ`, MongoDB documents become Lean structures, and fallible
operations return `Option`/`Except`.  Asynchronous early exits
(`raise HTTPException`, `continue`, `return`) become branches of total
functions; an uncaught exception escaping a handler is modelled by an
explicit `exn`-style outcome.
-/

set_option autoImplicit false

namespace Ephcha

/-! ## Configuration constants (backend.py lines 38-41) -/

def MESSAGE_LIMIT : Nat := 10
def WINDOW_SEC : ℚ := 60
def SIZE_LIMIT : Nat := 4096
def CONN_LIMIT_PER_IP : Int := 5

/-! ## Insertion-ordered dictionaries

Python `dict`s preserve insertion order: assigning to an existing key
keeps its position, assigning a fresh key appends, `del` removes the
key, `.values()` iterates in insertion order.  We model a dict as an
association list with unique keys and operations mirroring that
behaviour. -/

abbrev AList (α : Type) : Type := List (String × α)

def aget {α : Type} : AList α → String → Option α
  | [], _ => none
  | p :: d, k => if p.1 = k then some p.2 else aget d k

def aset {α : Type} : AList α → String → α → AList α
  | [], k, v => [(k, v)]
  | p :: d, k, v => if p.1 = k then (k, v) :: d else p :: aset d k v

def adel {α : Type} (d : AList α) (k : String) : AList α :=
  d.filter (fun p => decide (p.1 ≠ k))

def avalues {α : Type} (d : AList α) : List α := d.map Prod.snd

theorem aget_aset_self {α : Type} (d : AList α) (k : String) (v : α) :
    aget (aset d k v) k = some v := by
  induction d with
  | nil => simp [aget, aset]
  | cons p d ih =>
    by_cases h : p.1 = k
    · simp [aset, h, aget]
    · simp [aset, h, aget, ih]

theorem aget_aset_ne {α : Type} (d : AList α) (k k' : String) (v : α) (h : k' ≠ k) :
    aget (aset d k v) k' = aget d k' := by
  have hk : ¬ (k = k') := fun hh => h hh.symm
  induction d with
  | nil => simp [aget, aset, hk]
  | cons p d ih =>
    by_cases hp : p.1 = k
    · have hp' : ¬ (p.1 = k') := by rw [hp]; exact hk
      simp [aset, hp, aget, hk, hp']
    · simp [aset, hp, aget, ih]

theorem aget_adel_self {α : Type} (d : AList α) (k : String) :
    aget (adel d k) k = none := by
  induction d with
  | nil => simp [aget, adel]
  | cons p d ih =>
    by_cases h : p.1 = k
    · simpa [adel, h] using ih
    · simpa [adel, aget, h] using ih

theorem aget_adel_ne {α : Type} (d : AList α) (k k' : String) (h : k' ≠ k) :
    aget (adel d k) k' = aget d k' := by
  induction d with
  | nil => simp [aget, adel]
  | cons p d ih =>
    by_cases hp : p.1 = k
    · have hp' : ¬ (p.1 = k') := by rw [hp]; exact fun hh => h hh.symm
      have h1 : adel (p :: d) k = adel d k := by
        simp [adel, List.filter_cons, hp]
      rw [h1, ih]
      simp [aget, hp']
    · have h1 : adel (p :: d) k = p :: adel d k := by
        simp [adel, List.filter_cons, hp]
      by_cases hp' : p.1 = k'
      · rw [h1]; simp [aget, hp']
      · rw [h1]; simp [aget, hp', ih]

/-! ## Sliding-window rate limiter (backend.py lines 44-53)

The Python helper mutates `rate_limits[key]['messages']` in place; we
model it as a function from the key's current timestamp list (and the
current time) to the limited-flag together with the new list. -/

def is_rate_limited (msgs : List ℚ) (now : ℚ) : Bool × List ℚ :=
  let messages := msgs.filter (fun t => decide (now - t < WINDOW_SEC))
  if MESSAGE_LIMIT ≤ messages.length then (true, messages)
  else (false, messages ++ [now])

/-! ## Connections and sequential sends

A live websocket is modelled by an id together with a flag saying
whether `send_json` to it succeeds; a failing send raises, which in the
Python source aborts the enclosing loop.  `sendSeq` models a
`for ws in ...: await ws.send_json(payload)` loop: it returns the
deliveries actually made (in order) and whether the loop completed
without an exception. -/

structure Conn where
  id : Nat
  ok : Bool
deriving DecidableEq, Repr

def sendSeq {α : Type} : List Conn → α → List (Nat × α) × Bool
  | [], _ => ([], true)
  | c :: rest, m =>
    if c.ok then
      let r := sendSeq rest m
      ((c.id, m) :: r.1, r.2)
    else ([], false)

theorem sendSeq_eq {α : Type} (conns : List Conn) (m : α) :
    sendSeq conns m =
      ((conns.takeWhile Conn.ok).map (fun c => (c.id, m)), conns.all Conn.ok) := by
  induction conns with
  | nil => simp [sendSeq]
  | cons c rest ih =>
    by_cases h : c.ok
    · simp [sendSeq, h, List.takeWhile_cons, List.all_cons, ih]
    · simp [sendSeq, h, List.takeWhile_cons, List.all_cons]

/-! ## Base64 (Python `base64.b64encode` / `b64decode`)

Bytes are `Nat`s `< 256`; the text side is `List Char` over the
standard base64 alphabet with `=` padding.  `b64decode` fails
(`none`) on input it cannot decode, modelling the exception raised by
the Python function. -/

def b64Chars : List Char :=
  "ABCDEFGHIJKLMNOPQRSTUVWXYZabcdefghijklmnopqrstuvwxyz0123456789+/".toList

def sextetChar (n : Nat) : Char := b64Chars.getD n 'A'

def charSextet (c : Char) : Option Nat :=
  let i := b64Chars.indexOf c
  if i < 64 then some i else none

def b64encode : List Nat → List Char
  | a :: b :: c :: rest =>
    sextetChar (a / 4) :: sextetChar ((a % 4) * 16 + b / 16) ::
      sextetChar ((b % 16) * 4 + c / 64) :: sextetChar (c % 64) :: b64encode rest
  | [a, b] =>
    [sextetChar (a / 4), sextetChar ((a % 4) * 16 + b / 16), sextetChar ((b % 16) * 4), '=']
  | [a] => [sextetChar (a / 4), sextetChar ((a % 4) * 16), '=', '=']
  | [] => []

def b64decode : List Char → Option (List Nat)
  | [] => some []
  | c1 :: c2 :: c3 :: c4 :: rest =>
    match charSextet c1, charSextet c2 with
    | some s1, some s2 =>
      if c3 = '=' ∧ c4 = '=' ∧ rest = [] then some [s1 * 4 + s2 / 16]
      else
        match charSextet c3 with
        | some s3 =>
          if c4 = '=' ∧ rest = [] then some [s1 * 4 + s2 / 16, (s2 % 16) * 16 + s3 / 4]
          else
            match charSextet c4, b64decode rest with
            | some s4, some tl =>
              some ((s1 * 4 + s2 / 16) :: ((s2 % 16) * 16 + s3 / 4) ::
                ((s3 % 4) * 64 + s4) :: tl)
            | _, _ => none
        | none => none
    | _, _ => none
  | _ => none

theorem charSextet_sextetChar_fin :
    ∀ i : Fin 64, charSextet (sextetChar i.val) = some i.val := by decide

theorem sextetChar_ne_pad_fin : ∀ i : Fin 64, sextetChar i.val ≠ '=' := by decide

theorem charSextet_sextetChar (s : Nat) (h : s < 64) :
    charSextet (sextetChar s) = some s :=
  charSextet_sextetChar_fin ⟨s, h⟩

theorem sextetChar_ne_pad (s : Nat) (h : s < 64) : sextetChar s ≠ '=' :=
  sextetChar_ne_pad_fin ⟨s, h⟩

theorem b64_roundtrip :
    ∀ l : List Nat, (∀ x ∈ l, x < 256) → b64decode (b64encode l) = some l := by
  intro l
  induction l using b64encode.induct with
  | case1 a b c rest ih =>
    intro h
    have ha : a < 256 := h a (by simp)
    have hb : b < 256 := h b (by simp)
    have hc : c < 256 := h c (by simp)
    have h1 : a / 4 < 64 := by omega
    have h2 : (a % 4) * 16 + b / 16 < 64 := by omega
    have h3 : (b % 16) * 4 + c / 64 < 64 := by omega
    have h4 : c % 64 < 64 := by omega
    have htl : b64decode (b64encode rest) = some rest := by
      exact ih (fun x hx => h x (by simp [hx]))
    rw [b64encode]
    simp [b64decode, charSextet_sextetChar _ h1, charSextet_sextetChar _ h2,
      charSextet_sextetChar _ h3, charSextet_sextetChar _ h4, htl,
      sextetChar_ne_pad _ h3, sextetChar_ne_pad _ h4]
    omega
  | case2 a b =>
    intro h
    have ha : a < 256 := h a (by simp)
    have hb : b < 256 := h b (by simp)
    have h1 : a / 4 < 64 := by omega
    have h2 : (a % 4) * 16 + b / 16 < 64 := by omega
    have h3 : (b % 16) * 4 < 64 := by omega
    rw [b64encode]
    simp [b64decode, charSextet_sextetChar _ h1, charSextet_sextetChar _ h2,
      charSextet_sextetChar _ h3, sextetChar_ne_pad _ h3]
    omega
  | case3 a =>
    intro h
    have ha : a < 256 := h a (by simp)
    have h1 : a / 4 < 64 := by omega
    have h2 : (a % 4) * 16 < 64 := by omega
    rw [b64encode]
    simp [b64decode, charSextet_sextetChar _ h1, charSextet_sextetChar _ h2]
    omega
  | case4 => intro _; rfl

/-! ## Key bundles (backend.py lines 102-112, 124-141, 157-164) -/

structure KeyBundle where
  registration_id : Int
  identity : List Nat
  signed_prekey : List Nat
  signed_prekey_sig : List Nat
  one_time_prekey : List Nat
deriving DecidableEq, Repr

/-- A `prekey_bundle` value as it arrives in the join request body.
`registration_id` is `some n` when `int(prekey['registration_id'])`
succeeds; each binary field is `some s` when the key is present, with
`s` the base64 text. -/
structure PrekeyWire where
  registration_id : Option Int
  identity : Option (List Char)
  signed_prekey : Option (List Char)
  signed_prekey_sig : Option (List Char)
  one_time_prekey : Option (List Char)
deriving DecidableEq, Repr

/-- A key bundle as returned over the wire (base64-encoded fields). -/
structure PrekeyOut where
  registration_id : Int
  identity : List Char
  signed_prekey : List Char
  signed_prekey_sig : List Char
  one_time_prekey : List Char
deriving DecidableEq, Repr

/-- The decoding block of `join_server` (lines 103-112): any missing
field or base64 failure raises, caught and turned into a 400. -/
def decodeBundle (p : PrekeyWire) : Option KeyBundle :=
  match p.registration_id, p.identity, p.signed_prekey, p.signed_prekey_sig,
      p.one_time_prekey with
  | some r, some i, some sp, some sps, some otp =>
    match b64decode i, b64decode sp, b64decode sps, b64decode otp with
    | some i', some sp', some sps', some otp' => some ⟨r, i', sp', sps', otp'⟩
    | _, _, _, _ => none
  | _, _, _, _, _ => none

/-- Re-encoding of a stored bundle for a response (lines 129-135,
158-164). -/
def encodeBundle (b : KeyBundle) : PrekeyOut :=
  ⟨b.registration_id, b64encode b.identity, b64encode b.signed_prekey,
    b64encode b.signed_prekey_sig, b64encode b.one_time_prekey⟩

/-- View an outbound bundle as a request-body bundle (what a client
would send back). -/
def wireOfOut (o : PrekeyOut) : PrekeyWire :=
  ⟨some o.registration_id, some o.identity, some o.signed_prekey,
    some o.signed_prekey_sig, some o.one_time_prekey⟩

/-! ## Durable store (MongoDB collections, lines 20-21) -/

structure ServerDoc where
  join_token : String
  admin_user_id : Option String
  members : AList KeyBundle
  created_at : ℚ
  last_activity : ℚ
deriving DecidableEq

structure TokensDoc where
  tokens : AList String
  created_at : ℚ
  last_activity : ℚ
deriving DecidableEq

structure Store where
  servers : AList ServerDoc
  member_tokens : AList TokensDoc
deriving DecidableEq

/-- `update_activity` (lines 56-59): `update_one` with a `$set` on each
collection; a filter that matches no document is a no-op. -/
def update_activity (st : Store) (server_id : String) (now : ℚ) : Store :=
  { servers :=
      match aget st.servers server_id with
      | some d => aset st.servers server_id { d with last_activity := now }
      | none => st.servers,
    member_tokens :=
      match aget st.member_tokens server_id with
      | some d => aset st.member_tokens server_id { d with last_activity := now }
      | none => st.member_tokens }

/-- `create_server` (lines 62-83).  The generated uuid4 identifiers are
passed in as parameters; a duplicate `_id` would make `insert_one`
raise before any write, so that case leaves everything unchanged. -/
def create_server (st : Store) (connected : AList (AList Conn))
    (server_id join_token : String) (now : ℚ) : Store × AList (AList Conn) :=
  if (aget st.servers server_id).isSome then (st, connected)
  else
    ({ servers := aset st.servers server_id
         { join_token := join_token, admin_user_id := none, members := [],
           created_at := now, last_activity := now },
       member_tokens := aset st.member_tokens server_id
         { tokens := [], created_at := now, last_activity := now } },
     if (aget connected server_id).isSome then connected
     else aset connected server_id [])

/-! ## Join (backend.py lines 86-148) -/

structure JoinBody where
  join_token : Option String
  user_id : Option String
  prekey_bundle : Option PrekeyWire
deriving DecidableEq

/-- HTTP-style outcomes; `exn` is an exception escaping the handler
(no response is returned to the caller). -/
inductive HErr where
  | e404 (detail : String)
  | e401 (detail : String)
  | e400 (detail : String)
  | exn
deriving DecidableEq, Repr

structure Frame where
  type : Option String
  «to» : Option String
  size : Nat
  body : String
deriving DecidableEq, Repr

inductive Payload where
  | joinNote (user_id : String)
  | relay (f : Frame)
deriving DecidableEq, Repr

structure JoinResponse where
  member_token : String
  others : AList PrekeyOut
  admin_user_id : Option String
deriving DecidableEq

instance {ε α : Type} [DecidableEq ε] [DecidableEq α] : DecidableEq (Except ε α) :=
  fun x y =>
  match x, y with
  | .ok a, .ok b =>
    match decEq a b with
    | isTrue h => isTrue (h ▸ rfl)
    | isFalse h => isFalse (fun hh => h (Except.ok.inj hh))
  | .error a, .error b =>
    match decEq a b with
    | isTrue h => isTrue (h ▸ rfl)
    | isFalse h => isFalse (fun hh => h (Except.error.inj hh))
  | .ok _, .error _ => isFalse (fun hh => Except.noConfusion hh)
  | .error _, .ok _ => isFalse (fun hh => Except.noConfusion hh)

structure JoinResult where
  result : Except HErr JoinResponse
  store : Store
  sent : List (Nat × Payload)
deriving DecidableEq

def join_server (st : Store) (connected : AList (AList Conn)) (server_id : String)
    (body : JoinBody) (member_token : String) (now : ℚ) : JoinResult :=
  let st1 := update_activity st server_id now
  match aget st1.servers server_id with
  | none => ⟨.error (.e404 "Server not found"), st1, []⟩
  | some server =>
    if body.join_token = some server.join_token then
      match body.user_id with
      | none => ⟨.error (.e400 "Missing user_id"), st1, []⟩
      | some user_id =>
        if user_id = "" then ⟨.error (.e400 "Missing user_id"), st1, []⟩
        else
          match body.prekey_bundle with
          | none => ⟨.error (.e400 "Missing prekey_bundle"), st1, []⟩
          | some prekey =>
            match decodeBundle prekey with
            | none => ⟨.error (.e400 "Invalid prekey format"), st1, []⟩
            | some bundle =>
              let server2 : ServerDoc :=
                { server with
                    members := aset server.members user_id bundle,
                    admin_user_id :=
                      if server.admin_user_id = none then some user_id
                      else server.admin_user_id }
              let st2 : Store := { st1 with servers := aset st1.servers server_id server2 }
              let st3 : Store :=
                { st2 with
                    member_tokens :=
                      match aget st2.member_tokens server_id with
                      | some td =>
                        aset st2.member_tokens server_id
                          { td with tokens := aset td.tokens user_id member_token }
                      | none => st2.member_tokens }
              match aget st3.servers server_id with
              | none => ⟨.error .exn, st3, []⟩
              | some server3 =>
                let others : AList PrekeyOut :=
                  (server3.members.filter (fun p => decide (p.1 ≠ user_id))).map
                    (fun p => (p.1, encodeBundle p.2))
                let response : JoinResponse :=
                  ⟨member_token, others, server3.admin_user_id⟩
                match aget connected server_id with
                | some room =>
                  let r := sendSeq (avalues room) (Payload.joinNote user_id)
                  if r.2 then ⟨.ok response, st3, r.1⟩
                  else ⟨.error .exn, st3, r.1⟩
                | none => ⟨.ok response, st3, []⟩
    else ⟨.error (.e401 "Invalid join token"), st1, []⟩

/-! ## Prekey lookup (backend.py lines 151-164) -/

def get_prekey (st : Store) (server_id user_id : String) (now : ℚ) :
    Except HErr PrekeyOut × Store :=
  let st1 := update_activity st server_id now
  match aget st1.servers server_id with
  | none => (.error (.e404 "Not found"), st1)
  | some server =>
    match aget server.members user_id with
    | none => (.error (.e404 "Not found"), st1)
    | some b => (.ok (encodeBundle b), st1)

/-! ## Admission controller (backend.py lines 191-197, 241-243) -/

def tryAdmit (ipc : AList Int) (ip : String) : Bool × AList Int :=
  let ipc1 := if (aget ipc ip).isSome then ipc else aset ipc ip 0
  let c := (aget ipc1 ip).getD 0
  if CONN_LIMIT_PER_IP ≤ c then (false, ipc1)
  else (true, aset ipc1 ip (c + 1))

/-- Teardown half of the admission controller (lines 241-243).  A
missing entry would make the Python `-=` raise `KeyError`; that case is
modelled as leaving the map unchanged. -/
def release (ipc : AList Int) (ip : String) : AList Int :=
  match aget ipc ip with
  | some c =>
    let ipc1 := aset ipc ip (c - 1)
    if c - 1 = 0 then adel ipc1 ip else ipc1
  | none => ipc

/-! ## Connection lifecycle (backend.py lines 167-243) -/

structure ConnectResult where
  accepted : Bool
  close_code : Option Nat
  user_id : Option String
  store : Store
  connected : AList (AList Conn)
  ip_connections : AList Int
deriving DecidableEq

/-- The pre-loop part of `websocket_endpoint` (lines 168-204): activity
touch, room existence, token authentication (first matching token in
insertion order), per-origin admission, registry insertion. -/
def websocket_connect (st : Store) (connected : AList (AList Conn)) (ipc : AList Int)
    (server_id member_token ip : String) (websocket : Conn) (now : ℚ) : ConnectResult :=
  let st1 := update_activity st server_id now
  match aget st1.servers server_id with
  | none => ⟨false, some 1008, none, st1, connected, ipc⟩
  | some _server =>
    let tokens :=
      match aget st1.member_tokens server_id with
      | some td => td.tokens
      | none => []
    match tokens.find? (fun p => p.2 == member_token) with
    | none => ⟨false, some 1008, none, st1, connected, ipc⟩
    | some p =>
      let user_id := p.1
      let r := tryAdmit ipc ip
      if r.1 then
        let room := (aget connected server_id).getD []
        ⟨true, none, some user_id, st1,
          aset connected server_id (aset room user_id websocket), r.2⟩
      else ⟨false, some 1013, some user_id, st1, connected, r.2⟩

/-- The registry half of the `finally` block (lines 239-240): the entry
for `(server_id, user_id)` is deleted whenever it is present; the
`websocket` being torn down is in scope there but never compared
against the stored handle. -/
def teardownRegistry (connected : AList (AList Conn)) (server_id user_id : String) :
    AList (AList Conn) :=
  match aget connected server_id with
  | some room =>
    if (aget room user_id).isSome then aset connected server_id (adel room user_id)
    else connected
  | none => connected

def websocket_teardown (connected : AList (AList Conn)) (ipc : AList Int)
    (server_id user_id ip : String) (websocket : Conn) :
    AList (AList Conn) × AList Int :=
  (teardownRegistry connected server_id user_id, release ipc ip)

def regGet (connected : AList (AList Conn)) (server_id user_id : String) : Option Conn :=
  match aget connected server_id with
  | some room => aget room user_id
  | none => none

/-! ## Relay dispatcher (backend.py lines 226-235) -/

def dispatch (connected : AList (AList Conn)) (server_id : String) (data : Frame) :
    List (Nat × Payload) × Bool :=
  if data.type = some "private" then
    match data.«to» with
    | some to_user =>
      if to_user = "" then ([], true)
      else
        match aget connected server_id with
        | some room =>
          match aget room to_user with
          | some ws => if ws.ok then ([(ws.id, Payload.relay data)], true) else ([], false)
          | none => ([], true)
        | none => ([], true)
    | none => ([], true)
  else if data.type = some "group" ∨ data.type = some "join_notification" then
    match aget connected server_id with
    | some room => sendSeq (avalues room) (Payload.relay data)
    | none => ([], false)
  else ([], true)

/-! ## Receive-loop body (backend.py lines 207-235) -/

structure RelayState where
  connected : AList (AList Conn)
  rate_limits : AList (List ℚ)
deriving DecidableEq

structure StepResult where
  state : RelayState
  deliveries : List (Nat × Payload)
  touched : Bool
  ok : Bool
deriving DecidableEq

/-- One iteration of the receive loop for a connection already in the
`Active` state.  `touched` records whether `update_activity` ran;
`ok = false` means a send raised, which exits the loop (teardown then
runs in `finally`). -/
def processFrame (st : RelayState) (server_id user_id ip : String) (data : Frame)
    (now : ℚ) : StepResult :=
  if SIZE_LIMIT < data.size then ⟨st, [], false, true⟩
  else
    let rU := is_rate_limited ((aget st.rate_limits user_id).getD []) now
    let rl1 := aset st.rate_limits user_id rU.2
    if rU.1 then ⟨⟨st.connected, rl1⟩, [], false, true⟩
    else
      let rI := is_rate_limited ((aget rl1 ip).getD []) now
      let rl2 := aset rl1 ip rI.2
      if rI.1 then ⟨⟨st.connected, rl2⟩, [], false, true⟩
      else
        let d := dispatch st.connected server_id data
        ⟨⟨st.connected, rl2⟩, d.1, true, d.2⟩

/-! ## Whole-system traces

One step per externally triggered event, in the sequential
interleaving semantics: an HTTP request, a connection handshake, one
inbound frame on an active connection, or a disconnect (whose
`finally` teardown always runs). -/

inductive Op where
  | create (server_id join_token : String) (now : ℚ)
  | join (server_id : String) (body : JoinBody) (member_token : String) (now : ℚ)
  | connect (server_id member_token ip : String) (websocket : Conn) (now : ℚ)
  | frame (server_id user_id ip : String) (data : Frame) (now : ℚ)
  | disconnect (server_id user_id ip : String) (websocket : Conn)
deriving DecidableEq

structure Sys where
  store : Store
  connected : AList (AList Conn)
  rate_limits : AList (List ℚ)
  ip_connections : AList Int
deriving DecidableEq

inductive Out where
  | outNone
  | outJoin (r : Except HErr JoinResponse)
  | outConnect (accepted : Bool)
  | outFrame (sent : List (Nat × Payload)) (ok : Bool)
deriving DecidableEq

def initSys : Sys := ⟨⟨[], []⟩, [], [], []⟩

def step (sys : Sys) : Op → Sys × Out
  | .create server_id join_token now =>
    let r := create_server sys.store sys.connected server_id join_token now
    (⟨r.1, r.2, sys.rate_limits, sys.ip_connections⟩, .outNone)
  | .join server_id body member_token now =>
    let r := join_server sys.store sys.connected server_id body member_token now
    (⟨r.store, sys.connected, sys.rate_limits, sys.ip_connections⟩, .outJoin r.result)
  | .connect server_id member_token ip websocket now =>
    let r := websocket_connect sys.store sys.connected sys.ip_connections
      server_id member_token ip websocket now
    (⟨r.store, r.connected, sys.rate_limits, r.ip_connections⟩, .outConnect r.accepted)
  | .frame server_id user_id ip data now =>
    let r := processFrame ⟨sys.connected, sys.rate_limits⟩ server_id user_id ip data now
    let store1 := if r.touched then update_activity sys.store server_id now else sys.store
    (⟨store1, r.state.connected, r.state.rate_limits, sys.ip_connections⟩,
      .outFrame r.deliveries r.ok)
  | .disconnect server_id user_id ip websocket =>
    let r := websocket_teardown sys.connected sys.ip_connections server_id user_id ip
      websocket
    (⟨sys.store, r.1, sys.rate_limits, r.2⟩, .outNone)

def runOps (ops : List Op) : Sys :=
  ops.foldl (fun s op => (step s op).1) initSys

def adminOf (sys : Sys) (r : String) : Option String :=
  match aget sys.store.servers r with
  | some d => d.admin_user_id
  | none => none

def tokensOf (sys : Sys) (r : String) : AList String :=
  match aget sys.store.member_tokens r with
  | some d => d.tokens
  | none => []

def roomOf (sys : Sys) (r : String) : AList Conn :=
  (aget sys.connected r).getD []

/-! ## Store accessors and `update_activity` lemmas -/

def membersOfS (st : Store) (r : String) : AList KeyBundle :=
  match aget st.servers r with
  | some d => d.members
  | none => []

def adminOfS (st : Store) (r : String) : Option String :=
  match aget st.servers r with
  | some d => d.admin_user_id
  | none => none

def tokensOfS (st : Store) (r : String) : AList String :=
  match aget st.member_tokens r with
  | some d => d.tokens
  | none => []

theorem ua_servers_self (st : Store) (sid : String) (now : ℚ) (d : ServerDoc)
    (h : aget st.servers sid = some d) :
    aget (update_activity st sid now).servers sid = some { d with last_activity := now } := by
  simp only [update_activity, h]
  exact aget_aset_self _ _ _

theorem ua_servers_none (st : Store) (sid : String) (now : ℚ)
    (h : aget st.servers sid = none) :
    aget (update_activity st sid now).servers sid = none := by
  simp only [update_activity, h]

theorem ua_servers_ne (st : Store) (sid r : String) (now : ℚ) (h : r ≠ sid) :
    aget (update_activity st sid now).servers r = aget st.servers r := by
  simp only [update_activity]
  cases hh : aget st.servers sid with
  | none => rfl
  | some d => exact aget_aset_ne _ _ _ _ h

theorem ua_tokens_self (st : Store) (sid : String) (now : ℚ) (d : TokensDoc)
    (h : aget st.member_tokens sid = some d) :
    aget (update_activity st sid now).member_tokens sid =
      some { d with last_activity := now } := by
  simp only [update_activity, h]
  exact aget_aset_self _ _ _

theorem ua_tokens_none (st : Store) (sid : String) (now : ℚ)
    (h : aget st.member_tokens sid = none) :
    aget (update_activity st sid now).member_tokens sid = none := by
  simp only [update_activity, h]

theorem ua_tokens_ne (st : Store) (sid r : String) (now : ℚ) (h : r ≠ sid) :
    aget (update_activity st sid now).member_tokens r = aget st.member_tokens r := by
  simp only [update_activity]
  cases hh : aget st.member_tokens sid with
  | none => rfl
  | some d => exact aget_aset_ne _ _ _ _ h

theorem membersOfS_ua (st : Store) (sid r : String) (now : ℚ) :
    membersOfS (update_activity st sid now) r = membersOfS st r := by
  by_cases h : r = sid
  · subst h
    cases hh : aget st.servers r with
    | none => simp [membersOfS, ua_servers_none st r now hh, hh]
    | some d => simp [membersOfS, ua_servers_self st r now d hh, hh]
  · simp [membersOfS, ua_servers_ne st sid r now h]

theorem adminOfS_ua (st : Store) (sid r : String) (now : ℚ) :
    adminOfS (update_activity st sid now) r = adminOfS st r := by
  by_cases h : r = sid
  · subst h
    cases hh : aget st.servers r with
    | none => simp [adminOfS, ua_servers_none st r now hh, hh]
    | some d => simp [adminOfS, ua_servers_self st r now d hh, hh]
  · simp [adminOfS, ua_servers_ne st sid r now h]

theorem tokensOfS_ua (st : Store) (sid r : String) (now : ℚ) :
    tokensOfS (update_activity st sid now) r = tokensOfS st r := by
  by_cases h : r = sid
  · subst h
    cases hh : aget st.member_tokens r with
    | none => simp [tokensOfS, ua_tokens_none st r now hh, hh]
    | some d => simp [tokensOfS, ua_tokens_self st r now d hh, hh]
  · simp [tokensOfS, ua_tokens_ne st sid r now h]

/-! ## Branch lemmas for `join_server` -/

theorem join_404 (st : Store) (connected : AList (AList Conn)) (server_id : String)
    (body : JoinBody) (tok : String) (now : ℚ)
    (hs : aget st.servers server_id = none) :
    join_server st connected server_id body tok now =
      ⟨.error (.e404 "Server not found"), update_activity st server_id now, []⟩ := by
  simp only [join_server, ua_servers_none st server_id now hs]

theorem join_401 (st : Store) (connected : AList (AList Conn)) (server_id : String)
    (body : JoinBody) (tok : String) (now : ℚ) (server : ServerDoc)
    (hs : aget st.servers server_id = some server)
    (hjt : ¬ (body.join_token = some server.join_token)) :
    join_server st connected server_id body tok now =
      ⟨.error (.e401 "Invalid join token"), update_activity st server_id now, []⟩ := by
  simp only [join_server, ua_servers_self st server_id now server hs, hjt, if_false]

theorem join_400_user (st : Store) (connected : AList (AList Conn)) (server_id : String)
    (body : JoinBody) (tok : String) (now : ℚ) (server : ServerDoc)
    (hs : aget st.servers server_id = some server)
    (hjt : body.join_token = some server.join_token)
    (hu : body.user_id = none ∨ body.user_id = some "") :
    join_server st connected server_id body tok now =
      ⟨.error (.e400 "Missing user_id"), update_activity st server_id now, []⟩ := by
  rcases hu with hu | hu <;>
    simp only [join_server, ua_servers_self st server_id now server hs, hjt, hu, if_true,
      eq_self_iff_true, if_false]

theorem join_400_prekey (st : Store) (connected : AList (AList Conn)) (server_id : String)
    (body : JoinBody) (tok : String) (now : ℚ) (server : ServerDoc) (user_id : String)
    (hs : aget st.servers server_id = some server)
    (hjt : body.join_token = some server.join_token)
    (hu : body.user_id = some user_id) (hu' : ¬ (user_id = ""))
    (hp : body.prekey_bundle = none) :
    join_server st connected server_id body tok now =
      ⟨.error (.e400 "Missing prekey_bundle"), update_activity st server_id now, []⟩ := by
  simp only [join_server, ua_servers_self st server_id now server hs, hjt, hu, hu', if_true,
    eq_self_iff_true, if_false]
  rw [hp]

theorem join_400_decode (st : Store) (connected : AList (AList Conn)) (server_id : String)
    (body : JoinBody) (tok : String) (now : ℚ) (server : ServerDoc) (user_id : String)
    (prekey : PrekeyWire)
    (hs : aget st.servers server_id = some server)
    (hjt : body.join_token = some server.join_token)
    (hu : body.user_id = some user_id) (hu' : ¬ (user_id = ""))
    (hp : body.prekey_bundle = some prekey)
    (hd : decodeBundle prekey = none) :
    join_server st connected server_id body tok now =
      ⟨.error (.e400 "Invalid prekey format"), update_activity st server_id now, []⟩ := by
  simp only [join_server, ua_servers_self st server_id now server hs, hjt, hu, hu', hp, hd,
    if_true, eq_self_iff_true, if_false]

/-- The server document as rewritten by a successful join's `$set`
(lines 114-118), on top of the activity refresh. -/
def joinUpdatedDoc (server : ServerDoc) (user_id : String) (bundle : KeyBundle)
    (now : ℚ) : ServerDoc :=
  { server with
      last_activity := now,
      members := aset server.members user_id bundle,
      admin_user_id :=
        if server.admin_user_id = none then some user_id else server.admin_user_id }

/-- The full durable-store state after a successful join. -/
def joinUpdatedStore (st : Store) (server_id : String) (server : ServerDoc)
    (user_id : String) (bundle : KeyBundle) (tok : String) (now : ℚ) : Store :=
  let st1 := update_activity st server_id now
  { servers := aset st1.servers server_id (joinUpdatedDoc server user_id bundle now),
    member_tokens :=
      match aget st1.member_tokens server_id with
      | some td =>
        aset st1.member_tokens server_id { td with tokens := aset td.tokens user_id tok }
      | none => st1.member_tokens }

/-- The `others` map built by lines 126-135. -/
def joinOthers (server : ServerDoc) (user_id : String) (bundle : KeyBundle) :
    AList PrekeyOut :=
  ((aset server.members user_id bundle).filter (fun p => decide (p.1 ≠ user_id))).map
    (fun p => (p.1, encodeBundle p.2))

/-- Master lemma: behaviour of `join_server` once every check passes. -/
theorem join_checks_passed (st : Store) (connected : AList (AList Conn))
    (server_id : String) (body : JoinBody) (tok : String) (now : ℚ)
    (server : ServerDoc) (user_id : String) (prekey : PrekeyWire) (bundle : KeyBundle)
    (hs : aget st.servers server_id = some server)
    (hjt : body.join_token = some server.join_token)
    (hu : body.user_id = some user_id) (hu' : ¬ (user_id = ""))
    (hp : body.prekey_bundle = some prekey)
    (hd : decodeBundle prekey = some bundle) :
    join_server st connected server_id body tok now =
      ⟨(if (avalues ((aget connected server_id).getD [])).all Conn.ok
          then .ok ⟨tok, joinOthers server user_id bundle,
            if server.admin_user_id = none then some user_id
            else server.admin_user_id⟩
          else .error .exn),
        joinUpdatedStore st server_id server user_id bundle tok now,
        ((avalues ((aget connected server_id).getD [])).takeWhile Conn.ok).map
          (fun c => (c.id, Payload.joinNote user_id))⟩ := by
  have hs1 := ua_servers_self st server_id now server hs
  simp only [join_server, hs1, hjt, hu, hu', hp, hd, if_true, eq_self_iff_true, if_false,
    aget_aset_self, sendSeq_eq]
  cases hconn : aget connected server_id with
  | none =>
    simp [avalues, joinUpdatedStore, joinUpdatedDoc, joinOthers]
  | some room =>
    by_cases hall : (avalues room).all Conn.ok
    · simp [hall, joinUpdatedStore, joinUpdatedDoc, joinOthers]
    · simp [hall, joinUpdatedStore, joinUpdatedDoc, joinOthers]

/-- Any 4xx-failing join leaves the store exactly activity-refreshed. -/
theorem join_4xx_store (st : Store) (connected : AList (AList Conn)) (server_id : String)
    (body : JoinBody) (tok : String) (now : ℚ) (d : String)
    (h : (join_server st connected server_id body tok now).result = .error (.e404 d) ∨
         (join_server st connected server_id body tok now).result = .error (.e401 d) ∨
         (join_server st connected server_id body tok now).result = .error (.e400 d)) :
    (join_server st connected server_id body tok now).store =
      update_activity st server_id now := by
  cases hs : aget st.servers server_id with
  | none => rw [join_404 st connected server_id body tok now hs]
  | some server =>
    by_cases hjt : body.join_token = some server.join_token
    · cases hu : body.user_id with
      | none => rw [join_400_user st connected server_id body tok now server hs hjt (Or.inl hu)]
      | some u =>
        by_cases hu' : u = ""
        · rw [join_400_user st connected server_id body tok now server hs hjt
            (Or.inr (by rw [hu, hu']))]
        · cases hp : body.prekey_bundle with
          | none =>
            rw [join_400_prekey st connected server_id body tok now server u hs hjt hu hu' hp]
          | some pw =>
            cases hd : decodeBundle pw with
            | none =>
              rw [join_400_decode st connected server_id body tok now server u pw
                hs hjt hu hu' hp hd]
            | some b =>
              exfalso
              rw [join_checks_passed st connected server_id body tok now server u pw b
                hs hjt hu hu' hp hd] at h
              by_cases hall :
                  (avalues ((aget connected server_id).getD [])).all Conn.ok = true
              · simp [hall] at h
              · simp [hall] at h
    · rw [join_401 st connected server_id body tok now server hs hjt]

theorem length_filter_lt {α : Type} (p : α → Bool) (l : List α) (a : α)
    (ha : a ∈ l) (hpa : p a = false) : (l.filter p).length < l.length := by
  induction l with
  | nil => cases ha
  | cons x l ih =>
    rcases List.mem_cons.mp ha with h | h
    · subst h
      have hle := List.length_filter_le p l
      simp [List.filter_cons, hpa]
      omega
    · by_cases hx : p x
      · have := ih h
        simp [List.filter_cons, hx]
        omega
      · have := ih h
        have hle := List.length_filter_le p l
        simp [List.filter_cons, hx]
        omega

theorem takeWhile_of_all {α : Type} (p : α → Bool) (l : List α)
    (h : ∀ a ∈ l, p a = true) : l.takeWhile p = l := by
  induction l with
  | nil => rfl
  | cons x l ih =>
    rw [List.takeWhile_cons, h x (by simp)]
    simp [ih (fun a ha => h a (by simp [ha]))]

theorem aget_filter_map {α β : Type} (f : α → β) (d : AList α) (k u : String) :
    aget ((d.filter (fun p => decide (p.1 ≠ k))).map (fun p => (p.1, f p.2))) u =
      if u = k then none else (aget d u).map f := by
  induction d with
  | nil => by_cases h : u = k <;> simp [aget, h]
  | cons p d ih =>
    by_cases hp : p.1 = k
    · have h1 : (p :: d).filter (fun q => decide (q.1 ≠ k)) =
          d.filter (fun q => decide (q.1 ≠ k)) := by
        simp [List.filter_cons, hp]
      rw [h1, ih]
      by_cases hu : u = k
      · simp [hu]
      · have hpu : ¬ (p.1 = u) := by rw [hp]; exact fun hh => hu hh.symm
        simp [hu, aget, hpu]
    · have h1 : (p :: d).filter (fun q => decide (q.1 ≠ k)) =
          p :: d.filter (fun q => decide (q.1 ≠ k)) := by
        simp [List.filter_cons, hp]
      rw [h1]
      by_cases hpu : p.1 = u
      · have hu : ¬ (u = k) := fun hh => hp (hpu.trans hh)
        simp [aget, hpu, hu]
      · simp only [List.map_cons, aget, hpu, if_false, ih]

/-! ## Claim C1 — compare-and-remove on teardown -/

/-- C1 counterexample: the registry holds the newer connection (id 2)
for `("r","m")`; the teardown of the distinct stale connection (id 1)
nevertheless removes that entry, because the `finally` block at lines
239-240 deletes by key without comparing the stored handle. -/
theorem C1_counterexample :
    regGet [("r", [("m", Conn.mk 2 true)])] "r" "m" = some (Conn.mk 2 true) ∧
    Conn.mk 1 true ≠ Conn.mk 2 true ∧
    (websocket_teardown [("r", [("m", Conn.mk 2 true)])] [("ip", 1)] "r" "m" "ip"
        (Conn.mk 1 true)).1 = [("r", [])] ∧
    regGet (websocket_teardown [("r", [("m", Conn.mk 2 true)])] [("ip", 1)] "r" "m" "ip"
        (Conn.mk 1 true)).1 "r" "m" = none := by
  decide

/-- C1 (amended): connection teardown removes the registry entry for
`(room_id, member_id)` whenever one is present, regardless of whether
the stored handle equals the connection being torn down; in particular
a stale teardown evicts a newer replacement connection. -/
theorem C1_teardown_removes_any (connected : AList (AList Conn)) (ipc : AList Int)
    (server_id user_id ip : String) (websocket stored : Conn)
    (h : regGet connected server_id user_id = some stored) :
    regGet (websocket_teardown connected ipc server_id user_id ip websocket).1
      server_id user_id = none := by
  unfold websocket_teardown teardownRegistry
  unfold regGet at h ⊢
  cases hc : aget connected server_id with
  | none => simp [hc] at h
  | some room =>
    simp only [hc] at h ⊢
    rw [h]
    simp only [Option.isSome_some, if_true, aget_aset_self, aget_adel_self]

/-- C1 witness. -/
theorem C1_teardown_removes_any_witness :
    regGet (websocket_teardown [("r", [("m", Conn.mk 2 true)])] [("ip", 1)] "r" "m" "ip"
      (Conn.mk 1 true)).1 "r" "m" = none :=
  C1_teardown_removes_any [("r", [("m", Conn.mk 2 true)])] [("ip", 1)] "r" "m" "ip"
    (Conn.mk 1 true) (Conn.mk 2 true) (by decide)

/-! ## Claim C3 — sliding-window rate limiter -/

/-- C3: `CheckAndRecord` first purges timestamps of age `≥ WINDOW_SEC`,
returns limited (recording nothing beyond the purge) when the remaining
count is `≥ MESSAGE_LIMIT`, otherwise appends `now` and allows; with
exactly `MESSAGE_LIMIT` events inside the window the next check is
rejected, and once more than `WINDOW_SEC` has elapsed since the first
event a new event is accepted again. -/
theorem C3_rate_limiter (ts : List ℚ) (t0 now now' : ℚ)
    (hlen : ts.length = MESSAGE_LIMIT)
    (hwin : ∀ t ∈ ts, now - t < WINDOW_SEC)
    (hmem : t0 ∈ ts) (hold : WINDOW_SEC < now' - t0) :
    (∀ (msgs : List ℚ) (n : ℚ), (is_rate_limited msgs n).1 = true →
        (is_rate_limited msgs n).2 =
          msgs.filter (fun t => decide (n - t < WINDOW_SEC))) ∧
    (∀ (msgs : List ℚ) (n : ℚ), (is_rate_limited msgs n).1 = false →
        (is_rate_limited msgs n).2 =
          msgs.filter (fun t => decide (n - t < WINDOW_SEC)) ++ [n]) ∧
    (∀ (msgs : List ℚ) (n : ℚ), (is_rate_limited msgs n).1 = true ↔
        MESSAGE_LIMIT ≤ (msgs.filter (fun t => decide (n - t < WINDOW_SEC))).length) ∧
    (is_rate_limited ts now).1 = true ∧
    (is_rate_limited ts now').1 = false := by
  refine ⟨?_, ?_, ?_, ?_, ?_⟩
  · intro msgs n h
    unfold is_rate_limited at h ⊢
    by_cases hh : MESSAGE_LIMIT ≤ (msgs.filter (fun t => decide (n - t < WINDOW_SEC))).length
    · simp [hh]
    · simp [hh] at h
  · intro msgs n h
    unfold is_rate_limited at h ⊢
    by_cases hh : MESSAGE_LIMIT ≤ (msgs.filter (fun t => decide (n - t < WINDOW_SEC))).length
    · simp [hh] at h
    · simp [hh]
  · intro msgs n
    unfold is_rate_limited
    by_cases hh : MESSAGE_LIMIT ≤ (msgs.filter (fun t => decide (n - t < WINDOW_SEC))).length
    · simp [hh]
    · simp [hh]
  · have hfull : ts.filter (fun t => decide (now - t < WINDOW_SEC)) = ts :=
      List.filter_eq_self.mpr (fun a ha => decide_eq_true (hwin a ha))
    have hy : MESSAGE_LIMIT ≤ (ts.filter (fun t => decide (now - t < WINDOW_SEC))).length := by
      rw [hfull]
      omega
    simp [is_rate_limited, hy]
  · have hdrop : (fun t => decide (now' - t < WINDOW_SEC)) t0 = false := by
      simp only [decide_eq_false_iff_not, not_lt]
      linarith
    have hlt := length_filter_lt (fun t => decide (now' - t < WINDOW_SEC)) ts t0 hmem hdrop
    have hn : ¬ (MESSAGE_LIMIT ≤
        (ts.filter (fun t => decide (now' - t < WINDOW_SEC))).length) := by
      omega
    simp [is_rate_limited, hn]

/-- C3 witness. -/
theorem C3_rate_limiter_witness :
    (is_rate_limited [0, 1, 2, 3, 4, 5, 6, 7, 8, 9] 50).1 = true ∧
    (is_rate_limited [0, 1, 2, 3, 4, 5, 6, 7, 8, 9] 61).1 = false := by
  have h := C3_rate_limiter [0, 1, 2, 3, 4, 5, 6, 7, 8, 9] 0 50 61 (by decide)
    (by intro t ht; fin_cases ht <;> norm_num [WINDOW_SEC])
    (by decide) (by norm_num [WINDOW_SEC])
  exact ⟨h.2.2.2.1, h.2.2.2.2⟩

/-! ## Claim C5 — per-origin admission controller -/

/-- C5: `TryAdmit` fails without incrementing when the origin's count is
already at `CONN_LIMIT_PER_IP` (so the sixth concurrent connection from
one origin is refused while the prior five stay admitted), refusal
leaves admission for every other origin unchanged, and `Release`
decrements the count, deleting the entry when it reaches zero. -/
theorem C5_admission (ipc : AList Int) (ip : String) (c : Int)
    (hc : aget ipc ip = some c) :
    (CONN_LIMIT_PER_IP ≤ c → tryAdmit ipc ip = (false, ipc)) ∧
    (c < CONN_LIMIT_PER_IP → tryAdmit ipc ip = (true, aset ipc ip (c + 1))) ∧
    (CONN_LIMIT_PER_IP ≤ c → ∀ q, tryAdmit (tryAdmit ipc ip).2 q = tryAdmit ipc q) ∧
    (c = 1 → aget (release ipc ip) ip = none) ∧
    (1 < c → aget (release ipc ip) ip = some (c - 1)) ∧
    (∀ k, k ≠ ip → aget (release ipc ip) k = aget ipc k) := by
  have hA : ∀ h : CONN_LIMIT_PER_IP ≤ c, tryAdmit ipc ip = (false, ipc) := by
    intro h
    simp [tryAdmit, hc, h]
  refine ⟨hA, ?_, ?_, ?_, ?_, ?_⟩
  · intro h
    have h' : ¬ (CONN_LIMIT_PER_IP ≤ c) := not_le.mpr h
    simp [tryAdmit, hc, h']
  · intro h q
    rw [hA h]
  · intro h
    subst h
    simp [release, hc, aget_adel_self]
  · intro h
    have hz : ¬ (c - 1 = 0) := by omega
    simp [release, hc, hz, aget_aset_self]
  · intro k hk
    by_cases hz : c - 1 = 0
    · simp [release, hc, hz, aget_adel_ne _ _ _ hk, aget_aset_ne _ _ _ _ hk]
    · simp [release, hc, hz, aget_aset_ne _ _ _ _ hk]

/-- C5 witness. -/
theorem C5_admission_witness :
    tryAdmit [("a", (5 : Int))] "a" = (false, [("a", 5)]) ∧
    aget (release [("a", (1 : Int))] "a") "a" = none ∧
    tryAdmit [("a", (2 : Int))] "a" = (true, [("a", 3)]) :=
  ⟨(C5_admission [("a", 5)] "a" 5 (by decide)).1 (by decide),
   (C5_admission [("a", 1)] "a" 1 (by decide)).2.2.2.1 rfl,
   (C5_admission [("a", 2)] "a" 2 (by decide)).2.1 (by decide)⟩

/-! ## Claim C9 — oversized frames are silently dropped -/

/-- C9: an inbound frame whose serialized size exceeds `SIZE_LIMIT` is
dropped before the rate limiters, the activity touch and the dispatch:
nothing is delivered, no state (registry, rate windows, store,
admission counts) changes, no error reaches the sender, and the
connection keeps processing subsequent frames. -/
theorem C9_oversized_frame (sys : Sys) (st : RelayState) (server_id user_id ip : String)
    (data : Frame) (now : ℚ) (h : SIZE_LIMIT < data.size) :
    processFrame st server_id user_id ip data now = ⟨st, [], false, true⟩ ∧
    step sys (Op.frame server_id user_id ip data now) = (sys, Out.outFrame [] true) := by
  constructor
  · unfold processFrame
    rw [if_pos h]
  · show (let r := processFrame ⟨sys.connected, sys.rate_limits⟩ server_id user_id ip data now
      let store1 := if r.touched then update_activity sys.store server_id now else sys.store
      (⟨store1, r.state.connected, r.state.rate_limits, sys.ip_connections⟩,
        Out.outFrame r.deliveries r.ok)) = (sys, Out.outFrame [] true)
    unfold processFrame
    rw [if_pos h]
    rfl

/-- C9 witness. -/
theorem C9_oversized_frame_witness :
    processFrame ⟨[("r", [("a", Conn.mk 1 true)])], []⟩ "r" "a" "ip"
        ⟨some "group", none, 5000, "x"⟩ 3 =
      ⟨⟨[("r", [("a", Conn.mk 1 true)])], []⟩, [], false, true⟩ :=
  (C9_oversized_frame initSys ⟨[("r", [("a", Conn.mk 1 true)])], []⟩ "r" "a" "ip"
    ⟨some "group", none, 5000, "x"⟩ 3 (by decide)).1

/-! ## Claim C8 — relay dispatch policy -/

/-- C8: for a frame accepted past the size and rate checks, a
`private` frame is delivered verbatim only to the connection registered
for `data.to` in the sender's room and is silently dropped when that
recipient is absent; a `group` or `join_notification` frame is
delivered to every connection currently registered in the sender's room
(sender included) and to no other room's connection; any other type is
a no-op without error. -/
theorem C8_dispatch (connected : AList (AList Conn)) (server_id : String)
    (room : AList Conn) (data : Frame)
    (hroom : aget connected server_id = some room) :
    (data.type = some "private" → ∀ to_user ws, data.«to» = some to_user →
      ¬ (to_user = "") → aget room to_user = some ws → ws.ok = true →
      dispatch connected server_id data = ([(ws.id, Payload.relay data)], true)) ∧
    (data.type = some "private" → ∀ to_user, data.«to» = some to_user →
      ¬ (to_user = "") → aget room to_user = none →
      dispatch connected server_id data = ([], true)) ∧
    ((data.type = some "group" ∨ data.type = some "join_notification") →
      (∀ c ∈ avalues room, c.ok = true) →
      dispatch connected server_id data =
        ((avalues room).map (fun c => (c.id, Payload.relay data)), true)) ∧
    (¬ (data.type = some "private") → ¬ (data.type = some "group") →
      ¬ (data.type = some "join_notification") →
      dispatch connected server_id data = ([], true)) := by
  refine ⟨?_, ?_, ?_, ?_⟩
  · intro ht to_user ws hto hne hws hok
    simp [dispatch, ht, hto, hne, hroom, hws, hok]
  · intro ht to_user hto hne hws
    simp [dispatch, ht, hto, hne, hroom, hws]
  · intro ht hall
    have hpr : ¬ (data.type = some "private") := by
      rcases ht with h | h <;> simp [h]
    have htw : (avalues room).takeWhile Conn.ok = avalues room :=
      takeWhile_of_all Conn.ok (avalues room) hall
    have hba : (avalues room).all Conn.ok = true := List.all_eq_true.mpr hall
    rcases ht with h | h <;>
      simp [dispatch, hpr, h, hroom, sendSeq_eq, htw, hba]
  · intro h1 h2 h3
    simp [dispatch, h1, h2, h3]

/-- C8 witness. -/
theorem C8_dispatch_witness :
    dispatch [("r", [("a", Conn.mk 1 true), ("b", Conn.mk 2 true)])] "r"
        ⟨some "private", some "b", 10, "x"⟩ =
      ([(2, Payload.relay ⟨some "private", some "b", 10, "x"⟩)], true) ∧
    dispatch [("r", [("a", Conn.mk 1 true), ("b", Conn.mk 2 true)])] "r"
        ⟨some "private", some "zz", 10, "x"⟩ = ([], true) ∧
    dispatch [("r", [("a", Conn.mk 1 true), ("b", Conn.mk 2 true)])] "r"
        ⟨some "group", none, 10, "x"⟩ =
      ([(1, Payload.relay ⟨some "group", none, 10, "x"⟩),
        (2, Payload.relay ⟨some "group", none, 10, "x"⟩)], true) ∧
    dispatch [("r", [("a", Conn.mk 1 true), ("b", Conn.mk 2 true)])] "r"
        ⟨some "typing", none, 10, "x"⟩ = ([], true) := by
  refine ⟨?_, ?_, ?_, ?_⟩
  · exact (C8_dispatch [("r", [("a", Conn.mk 1 true), ("b", Conn.mk 2 true)])] "r"
      [("a", Conn.mk 1 true), ("b", Conn.mk 2 true)]
      ⟨some "private", some "b", 10, "x"⟩ (by decide)).1 rfl "b" (Conn.mk 2 true)
      rfl (by decide) (by decide) rfl
  · exact (C8_dispatch [("r", [("a", Conn.mk 1 true), ("b", Conn.mk 2 true)])] "r"
      [("a", Conn.mk 1 true), ("b", Conn.mk 2 true)]
      ⟨some "private", some "zz", 10, "x"⟩ (by decide)).2.1 rfl "zz"
      rfl (by decide) (by decide)
  · have h := (C8_dispatch [("r", [("a", Conn.mk 1 true), ("b", Conn.mk 2 true)])] "r"
      [("a", Conn.mk 1 true), ("b", Conn.mk 2 true)]
      ⟨some "group", none, 10, "x"⟩ (by decide)).2.2.1 (Or.inl rfl)
      (by intro c hc; fin_cases hc <;> rfl)
    rw [h]
    decide
  · exact (C8_dispatch [("r", [("a", Conn.mk 1 true), ("b", Conn.mk 2 true)])] "r"
      [("a", Conn.mk 1 true), ("b", Conn.mk 2 true)]
      ⟨some "typing", none, 10, "x"⟩ (by decide)).2.2.2
      (by decide) (by decide) (by decide)

/-! ## Claim C2 — broadcast failure isolation -/

/-- C2 counterexample: room `"r"` has two connected members; the first
(`id 1`) fails on send, the second (`id 2`) is live.  A third member's
join passes every check, but the join-notification broadcast raises on
the first recipient: the live second recipient receives nothing (the
loop at lines 144-146 aborts), and the join returns no success response
(`exn`), contradicting both halves of the claim. -/
theorem C2_counterexample :
    (let r := join_server
        ⟨[("r", ⟨"jt", none, [], 0, 0⟩)], [("r", ⟨[], 0, 0⟩)]⟩
        [("r", [("a", Conn.mk 1 false), ("b", Conn.mk 2 true)])] "r"
        ⟨some "jt", some "c", some ⟨some 7, some [], some [], some [], some []⟩⟩
        "tok" 5
    (Conn.mk 2 true) ∈ avalues [("a", Conn.mk 1 false), ("b", Conn.mk 2 true)] ∧
    (Conn.mk 2 true).ok = true ∧
    r.sent = [] ∧
    r.result = .error .exn) := by
  decide

/-- C2 (amended): during a broadcast a delivery failure to one
recipient aborts the loop, so recipients before the failing connection
in iteration order are delivered to and recipients after it are never
attempted; a failure during the Join's notification broadcast aborts
the Join itself — the join returns no success response (the durable
mutations having already committed). -/
theorem C2_broadcast_abort (st : Store) (connected : AList (AList Conn))
    (server_id : String) (body : JoinBody) (tok : String) (now : ℚ)
    (server : ServerDoc) (user_id : String) (prekey : PrekeyWire) (bundle : KeyBundle)
    (hs : aget st.servers server_id = some server)
    (hjt : body.join_token = some server.join_token)
    (hu : body.user_id = some user_id) (hu' : ¬ (user_id = ""))
    (hp : body.prekey_bundle = some prekey)
    (hd : decodeBundle prekey = some bundle) :
    (∀ (conns : List Conn) (m : Payload),
        sendSeq conns m =
          ((conns.takeWhile Conn.ok).map (fun c => (c.id, m)), conns.all Conn.ok)) ∧
    (join_server st connected server_id body tok now).sent =
      ((avalues ((aget connected server_id).getD [])).takeWhile Conn.ok).map
        (fun c => (c.id, Payload.joinNote user_id)) ∧
    ((avalues ((aget connected server_id).getD [])).all Conn.ok = false →
      (join_server st connected server_id body tok now).result = .error .exn) := by
  have hm := join_checks_passed st connected server_id body tok now server user_id
    prekey bundle hs hjt hu hu' hp hd
  refine ⟨fun conns m => sendSeq_eq conns m, ?_, ?_⟩
  · rw [hm]
  · intro hall
    rw [hm]
    simp [hall]

/-- C2 witness. -/
theorem C2_broadcast_abort_witness :
    (join_server ⟨[("r", ⟨"jt", none, [], 0, 0⟩)], [("r", ⟨[], 0, 0⟩)]⟩
        [("r", [("a", Conn.mk 1 false), ("b", Conn.mk 2 true)])] "r"
        ⟨some "jt", some "c", some ⟨some 7, some [], some [], some [], some []⟩⟩
        "tok" 5).result = .error .exn := by
  have h := (C2_broadcast_abort
    ⟨[("r", ⟨"jt", none, [], 0, 0⟩)], [("r", ⟨[], 0, 0⟩)]⟩
    [("r", [("a", Conn.mk 1 false), ("b", Conn.mk 2 true)])] "r"
    ⟨some "jt", some "c", some ⟨some 7, some [], some [], some [], some []⟩⟩
    "tok" 5 ⟨"jt", none, [], 0, 0⟩ "c"
    ⟨some 7, some [], some [], some [], some []⟩ ⟨7, [], [], [], []⟩
    (by decide) (by decide) (by decide) (by decide) (by decide) (by decide)).2.2
  exact h (by decide)

/-! ## Claim C6 — join error taxonomy and failure purity -/

/-- C6: Join fails 404 on unknown room, 401 on a join-secret mismatch,
400 on a missing/empty member id, missing bundle, or a bundle field
failing decode, checked in that precedence; every such failing join
leaves the room's member→bundle map, token map and admin unchanged. -/
theorem C6_join_errors (st : Store) (connected : AList (AList Conn))
    (server_id : String) (body : JoinBody) (tok : String) (now : ℚ) :
    (aget st.servers server_id = none →
      (join_server st connected server_id body tok now).result =
        .error (.e404 "Server not found")) ∧
    (∀ server, aget st.servers server_id = some server →
      ¬ (body.join_token = some server.join_token) →
      (join_server st connected server_id body tok now).result =
        .error (.e401 "Invalid join token")) ∧
    (∀ server, aget st.servers server_id = some server →
      body.join_token = some server.join_token →
      (body.user_id = none ∨ body.user_id = some "") →
      (join_server st connected server_id body tok now).result =
        .error (.e400 "Missing user_id")) ∧
    (∀ server user_id, aget st.servers server_id = some server →
      body.join_token = some server.join_token →
      body.user_id = some user_id → ¬ (user_id = "") →
      body.prekey_bundle = none →
      (join_server st connected server_id body tok now).result =
        .error (.e400 "Missing prekey_bundle")) ∧
    (∀ server user_id prekey, aget st.servers server_id = some server →
      body.join_token = some server.join_token →
      body.user_id = some user_id → ¬ (user_id = "") →
      body.prekey_bundle = some prekey → decodeBundle prekey = none →
      (join_server st connected server_id body tok now).result =
        .error (.e400 "Invalid prekey format")) ∧
    (∀ d, ((join_server st connected server_id body tok now).result = .error (.e404 d) ∨
          (join_server st connected server_id body tok now).result = .error (.e401 d) ∨
          (join_server st connected server_id body tok now).result = .error (.e400 d)) →
      membersOfS (join_server st connected server_id body tok now).store server_id =
          membersOfS st server_id ∧
      tokensOfS (join_server st connected server_id body tok now).store server_id =
          tokensOfS st server_id ∧
      adminOfS (join_server st connected server_id body tok now).store server_id =
          adminOfS st server_id) := by
  refine ⟨?_, ?_, ?_, ?_, ?_, ?_⟩
  · intro hs
    rw [join_404 st connected server_id body tok now hs]
  · intro server hs hjt
    rw [join_401 st connected server_id body tok now server hs hjt]
  · intro server hs hjt hu
    rw [join_400_user st connected server_id body tok now server hs hjt hu]
  · intro server user_id hs hjt hu hu' hp
    rw [join_400_prekey st connected server_id body tok now server user_id hs hjt hu hu' hp]
  · intro server user_id prekey hs hjt hu hu' hp hd
    rw [join_400_decode st connected server_id body tok now server user_id prekey
      hs hjt hu hu' hp hd]
  · intro d h
    rw [join_4xx_store st connected server_id body tok now d h]
    exact ⟨membersOfS_ua st server_id server_id now,
      tokensOfS_ua st server_id server_id now, adminOfS_ua st server_id server_id now⟩

/-- C6 witness. -/
theorem C6_join_errors_witness :
    (join_server ⟨[("r", ⟨"jt", none, [], 0, 0⟩)], [("r", ⟨[], 0, 0⟩)]⟩ [] "r"
        ⟨some "WRONG", some "c", none⟩ "tok" 5).result =
      .error (.e401 "Invalid join token") ∧
    (join_server ⟨[("r", ⟨"jt", none, [], 0, 0⟩)], [("r", ⟨[], 0, 0⟩)]⟩ [] "missing"
        ⟨some "jt", some "c", none⟩ "tok" 5).result =
      .error (.e404 "Server not found") ∧
    membersOfS (join_server ⟨[("r", ⟨"jt", none, [], 0, 0⟩)], [("r", ⟨[], 0, 0⟩)]⟩ [] "r"
        ⟨some "WRONG", some "c", none⟩ "tok" 5).store "r" = [] := by
  refine ⟨?_, ?_, ?_⟩
  · exact (C6_join_errors ⟨[("r", ⟨"jt", none, [], 0, 0⟩)], [("r", ⟨[], 0, 0⟩)]⟩ [] "r"
      ⟨some "WRONG", some "c", none⟩ "tok" 5).2.1 ⟨"jt", none, [], 0, 0⟩
      (by decide) (by decide)
  · exact (C6_join_errors ⟨[("r", ⟨"jt", none, [], 0, 0⟩)], [("r", ⟨[], 0, 0⟩)]⟩ []
      "missing" ⟨some "jt", some "c", none⟩ "tok" 5).1 (by decide)
  · have h := ((C6_join_errors ⟨[("r", ⟨"jt", none, [], 0, 0⟩)], [("r", ⟨[], 0, 0⟩)]⟩ [] "r"
      ⟨some "WRONG", some "c", none⟩ "tok" 5).2.2.2.2.2 "Invalid join token"
      (Or.inr (Or.inl ((C6_join_errors ⟨[("r", ⟨"jt", none, [], 0, 0⟩)],
        [("r", ⟨[], 0, 0⟩)]⟩ [] "r" ⟨some "WRONG", some "c", none⟩ "tok" 5).2.1
        ⟨"jt", none, [], 0, 0⟩ (by decide) (by decide))))).1
    rw [h]
    decide

/-! ## Claim C7 — `others` map and round-trip encoding -/

def wfBundle (b : KeyBundle) : Prop :=
  (∀ x ∈ b.identity, x < 256) ∧ (∀ x ∈ b.signed_prekey, x < 256) ∧
  (∀ x ∈ b.signed_prekey_sig, x < 256) ∧ (∀ x ∈ b.one_time_prekey, x < 256)

instance (b : KeyBundle) : Decidable (wfBundle b) := by
  unfold wfBundle
  infer_instance

theorem decode_encode_bundle (b : KeyBundle) (h : wfBundle b) :
    decodeBundle (wireOfOut (encodeBundle b)) = some b := by
  obtain ⟨h1, h2, h3, h4⟩ := h
  simp [decodeBundle, wireOfOut, encodeBundle, b64_roundtrip _ h1, b64_roundtrip _ h2,
    b64_roundtrip _ h3, b64_roundtrip _ h4]

theorem membersOfS_joinUpdatedStore (st : Store) (server_id : String)
    (server : ServerDoc) (user_id : String) (bundle : KeyBundle) (tok : String)
    (now : ℚ) :
    membersOfS (joinUpdatedStore st server_id server user_id bundle tok now) server_id =
      aset server.members user_id bundle := by
  simp [membersOfS, joinUpdatedStore, joinUpdatedDoc, aget_aset_self]

/-- C7: the `others` map of a successful Join excludes the joining
member and contains exactly the encoded stored bundle of every other
member recorded in the room after the join, and the text encoding
round-trips: decoding an encoded bundle returns exactly the stored
bytes. -/
theorem C7_join_others (st : Store) (connected : AList (AList Conn))
    (server_id : String) (body : JoinBody) (tok : String) (now : ℚ)
    (server : ServerDoc) (user_id : String) (prekey : PrekeyWire) (bundle : KeyBundle)
    (hs : aget st.servers server_id = some server)
    (hjt : body.join_token = some server.join_token)
    (hu : body.user_id = some user_id) (hu' : ¬ (user_id = ""))
    (hp : body.prekey_bundle = some prekey)
    (hd : decodeBundle prekey = some bundle)
    (resp : JoinResponse)
    (hresp : (join_server st connected server_id body tok now).result = .ok resp) :
    aget resp.others user_id = none ∧
    (∀ u, ¬ (u = user_id) →
      aget resp.others u =
        (aget (membersOfS (join_server st connected server_id body tok now).store
          server_id) u).map encodeBundle) ∧
    (∀ b : KeyBundle, wfBundle b → decodeBundle (wireOfOut (encodeBundle b)) = some b) := by
  have hm := join_checks_passed st connected server_id body tok now server user_id
    prekey bundle hs hjt hu hu' hp hd
  rw [hm] at hresp
  by_cases hall : (avalues ((aget connected server_id).getD [])).all Conn.ok = true
  · rw [if_pos hall] at hresp
    have hro : resp.others = joinOthers server user_id bundle := by
      have := Except.ok.inj hresp
      rw [this.symm] -- resp = the constructed response
    refine ⟨?_, ?_, fun b hb => decode_encode_bundle b hb⟩
    · rw [hro]
      unfold joinOthers
      rw [aget_filter_map encodeBundle (aset server.members user_id bundle) user_id user_id]
      simp
    · intro u hun
      rw [hro, hm]
      unfold joinOthers
      rw [aget_filter_map encodeBundle (aset server.members user_id bundle) user_id u]
      rw [if_neg hun, membersOfS_joinUpdatedStore]
  · rw [if_neg hall] at hresp
    cases hresp

/-- C7 witness. -/
theorem C7_join_others_witness :
    aget (JoinResponse.others ⟨"tok", [("bob", encodeBundle ⟨7, [1], [2], [3], [4]⟩)],
        some "bob"⟩) "alice" = none ∧
    aget (JoinResponse.others ⟨"tok", [("bob", encodeBundle ⟨7, [1], [2], [3], [4]⟩)],
        some "bob"⟩) "bob" = some (encodeBundle ⟨7, [1], [2], [3], [4]⟩) ∧
    decodeBundle (wireOfOut (encodeBundle ⟨7, [1], [2], [3], [4]⟩)) =
      some ⟨7, [1], [2], [3], [4]⟩ := by
  have h := C7_join_others
    ⟨[("r", ⟨"jt", some "bob", [("bob", ⟨7, [1], [2], [3], [4]⟩)], 0, 0⟩)],
      [("r", ⟨[("bob", "tb")], 0, 0⟩)]⟩
    [("r", [])] "r"
    ⟨some "jt", some "alice",
      some ⟨some 9, some (b64encode [5]), some (b64encode [6]), some (b64encode [7]),
        some (b64encode [8])⟩⟩
    "tok" 5 ⟨"jt", some "bob", [("bob", ⟨7, [1], [2], [3], [4]⟩)], 0, 0⟩ "alice"
    ⟨some 9, some (b64encode [5]), some (b64encode [6]), some (b64encode [7]),
      some (b64encode [8])⟩
    ⟨9, [5], [6], [7], [8]⟩
    (by decide) (by decide) (by decide) (by decide) (by decide) (by decide)
    ⟨"tok", [("bob", encodeBundle ⟨7, [1], [2], [3], [4]⟩)], some "bob"⟩
    (by decide)
  refine ⟨h.1, ?_, h.2.2 ⟨7, [1], [2], [3], [4]⟩ (by decide)⟩
  have h2 := h.2.1 "bob" (by decide)
  rw [h2]
  decide

/-! ## Claim C10 — activity refresh ordering and failure frame -/

/-- C10: Join, GetKeyBundle and Connect all refresh the named room's
last-activity timestamp before any existence/secret/token check, so a
failing request on an existing room still extends the expiry deadline
of both the room document and the token document, and that refresh is
the only durable-store effect of such a failing request. -/
theorem C10_activity_refresh (st : Store) (connected : AList (AList Conn))
    (ipc : AList Int) (server_id uid mtok ip : String) (body : JoinBody)
    (tok : String) (ws : Conn) (now : ℚ) :
    (∀ d, ((join_server st connected server_id body tok now).result = .error (.e404 d) ∨
          (join_server st connected server_id body tok now).result = .error (.e401 d) ∨
          (join_server st connected server_id body tok now).result = .error (.e400 d)) →
      (join_server st connected server_id body tok now).store =
        update_activity st server_id now) ∧
    ((get_prekey st server_id uid now).2 = update_activity st server_id now) ∧
    ((websocket_connect st connected ipc server_id mtok ip ws now).store =
      update_activity st server_id now) ∧
    (∀ sd, aget st.servers server_id = some sd →
      aget (update_activity st server_id now).servers server_id =
        some { sd with last_activity := now }) ∧
    (∀ td, aget st.member_tokens server_id = some td →
      aget (update_activity st server_id now).member_tokens server_id =
        some { td with last_activity := now }) := by
  refine ⟨?_, ?_, ?_, ?_, ?_⟩
  · intro d h
    exact join_4xx_store st connected server_id body tok now d h
  · unfold get_prekey
    dsimp only
    cases h1 : aget (update_activity st server_id now).servers server_id with
    | none => simp [h1]
    | some server =>
      cases h2 : aget server.members uid with
      | none => simp [h1, h2]
      | some b => simp [h1, h2]
  · unfold websocket_connect
    dsimp only
    cases h1 : aget (update_activity st server_id now).servers server_id with
    | none => simp [h1]
    | some server =>
      cases h2 : (match aget (update_activity st server_id now).member_tokens server_id with
          | some td => td.tokens
          | none => []).find? (fun p : String × String => p.2 == mtok) with
      | none => simp [h1, h2]
      | some p =>
        by_cases h3 : (tryAdmit ipc ip).1
        · simp [h1, h2, h3]
        · simp [h1, h2, h3]
  · intro sd hsd
    exact ua_servers_self st server_id now sd hsd
  · intro td htd
    exact ua_tokens_self st server_id now td htd

/-- C10 witness. -/
theorem C10_activity_refresh_witness :
    (join_server ⟨[("r", ⟨"jt", none, [], 0, 0⟩)], [("r", ⟨[], 0, 0⟩)]⟩ [] "r"
        ⟨some "WRONG", some "c", none⟩ "tok" 5).store =
      update_activity ⟨[("r", ⟨"jt", none, [], 0, 0⟩)], [("r", ⟨[], 0, 0⟩)]⟩ "r" 5 ∧
    aget (update_activity ⟨[("r", ⟨"jt", none, [], 0, 0⟩)], [("r", ⟨[], 0, 0⟩)]⟩
        "r" 5).servers "r" = some ⟨"jt", none, [], 0, 5⟩ := by
  have h := C10_activity_refresh ⟨[("r", ⟨"jt", none, [], 0, 0⟩)], [("r", ⟨[], 0, 0⟩)]⟩
    [] [] "r" "u" "mt" "ip" ⟨some "WRONG", some "c", none⟩ "tok" (Conn.mk 1 true) 5
  refine ⟨h.1 "Invalid join token" (Or.inr (Or.inl (by decide))), ?_⟩
  have h2 := h.2.2.2.1 ⟨"jt", none, [], 0, 0⟩ (by decide)
  rw [h2]

/-! ## Helper lemmas for the trace invariant (claim C4) -/

theorem adminOf_eq (sys : Sys) (r : String) : adminOf sys r = adminOfS sys.store r := rfl

theorem tokensOf_eq (sys : Sys) (r : String) : tokensOf sys r = tokensOfS sys.store r := rfl

/-- Every join either fails before the `$set` (leaving only the
activity refresh, with no success response possible) or has passed
every check. -/
theorem join_server_split (st : Store) (connected : AList (AList Conn)) (sid : String)
    (body : JoinBody) (tok : String) (now : ℚ) :
    ((join_server st connected sid body tok now).store = update_activity st sid now ∧
      ∀ resp, ¬ ((join_server st connected sid body tok now).result = .ok resp)) ∨
    (∃ server user_id prekey bundle,
      aget st.servers sid = some server ∧ body.join_token = some server.join_token ∧
      body.user_id = some user_id ∧ ¬ (user_id = "") ∧
      body.prekey_bundle = some prekey ∧ decodeBundle prekey = some bundle) := by
  cases hs : aget st.servers sid with
  | none =>
    left
    rw [join_404 st connected sid body tok now hs]
    simp
  | some server =>
    by_cases hjt : body.join_token = some server.join_token
    · cases hu : body.user_id with
      | none =>
        left
        rw [join_400_user st connected sid body tok now server hs hjt (Or.inl hu)]
        simp
      | some u =>
        by_cases hu' : u = ""
        · left
          rw [join_400_user st connected sid body tok now server hs hjt
            (Or.inr (by rw [hu, hu']))]
          simp
        · cases hp : body.prekey_bundle with
          | none =>
            left
            rw [join_400_prekey st connected sid body tok now server u hs hjt hu hu' hp]
            simp
          | some pw =>
            cases hd : decodeBundle pw with
            | none =>
              left
              rw [join_400_decode st connected sid body tok now server u pw hs hjt hu hu' hp hd]
              simp
            | some b =>
              right
              exact ⟨server, u, pw, b, rfl, hjt, rfl, hu', rfl, hd⟩
    · left
      rw [join_401 st connected sid body tok now server hs hjt]
      simp

/-- A join can never change an already-set admin. -/
theorem join_admin_stable (st : Store) (connected : AList (AList Conn)) (sid : String)
    (body : JoinBody) (tok : String) (now : ℚ) (r a : String)
    (h : adminOfS st r = some a) :
    adminOfS (join_server st connected sid body tok now).store r = some a := by
  rcases join_server_split st connected sid body tok now with ⟨hst, _⟩ |
    ⟨server, u, pw, b, hs, hjt, hu, hu', hp, hd⟩
  · rw [hst, adminOfS_ua]
    exact h
  · rw [join_checks_passed st connected sid body tok now server u pw b hs hjt hu hu' hp hd]
    by_cases hr : r = sid
    · subst hr
      have hserver : server.admin_user_id = some a := by
        unfold adminOfS at h
        rw [hs] at h
        exact h
      simp [adminOfS, joinUpdatedStore, joinUpdatedDoc, aget_aset_self, hserver]
    · have h1 : aget (joinUpdatedStore st sid server u b tok now).servers r =
          aget st.servers r := by
        unfold joinUpdatedStore
        rw [aget_aset_ne _ _ _ _ hr, ua_servers_ne st sid r now hr]
      unfold adminOfS
      rw [h1]
      unfold adminOfS at h
      exact h

/-- A join changes nothing outside its own room's documents. -/
theorem join_other_room (st : Store) (connected : AList (AList Conn)) (sid : String)
    (body : JoinBody) (tok : String) (now : ℚ) (r : String) (hr : r ≠ sid) :
    adminOfS (join_server st connected sid body tok now).store r = adminOfS st r ∧
    tokensOfS (join_server st connected sid body tok now).store r = tokensOfS st r := by
  rcases join_server_split st connected sid body tok now with ⟨hst, _⟩ |
    ⟨server, u, pw, b, hs, hjt, hu, hu', hp, hd⟩
  · rw [hst, adminOfS_ua, tokensOfS_ua]
    exact ⟨rfl, rfl⟩
  · rw [join_checks_passed st connected sid body tok now server u pw b hs hjt hu hu' hp hd]
    constructor
    · have h1 : aget (joinUpdatedStore st sid server u b tok now).servers r =
          aget st.servers r := by
        unfold joinUpdatedStore
        rw [aget_aset_ne _ _ _ _ hr, ua_servers_ne st sid r now hr]
      unfold adminOfS
      rw [h1]
    · have h1 : aget (joinUpdatedStore st sid server u b tok now).member_tokens r =
          aget st.member_tokens r := by
        unfold joinUpdatedStore
        dsimp only
        cases h2 : aget (update_activity st sid now).member_tokens sid with
        | none => rw [ua_tokens_ne st sid r now hr]
        | some td => rw [aget_aset_ne _ _ _ _ hr, ua_tokens_ne st sid r now hr]
      unfold tokensOfS
      rw [h1]

theorem get_prekey_store (st : Store) (sid uid : String) (now : ℚ) :
    (get_prekey st sid uid now).2 = update_activity st sid now := by
  unfold get_prekey
  dsimp only
  cases h1 : aget (update_activity st sid now).servers sid with
  | none => simp [h1]
  | some server =>
    cases h2 : aget server.members uid with
    | none => simp [h1, h2]
    | some b => simp [h1, h2]

theorem websocket_connect_store (st : Store) (connected : AList (AList Conn))
    (ipc : AList Int) (sid mtok ip : String) (ws : Conn) (now : ℚ) :
    (websocket_connect st connected ipc sid mtok ip ws now).store =
      update_activity st sid now := by
  unfold websocket_connect
  dsimp only
  cases h1 : aget (update_activity st sid now).servers sid with
  | none => simp [h1]
  | some server =>
    cases h2 : (match aget (update_activity st sid now).member_tokens sid with
        | some td => td.tokens
        | none => []).find? (fun p : String × String => p.2 == mtok) with
    | none => simp [h1, h2]
    | some p =>
      by_cases h3 : (tryAdmit ipc ip).1
      · simp [h1, h2, h3]
      · simp [h1, h2, h3]

/-- The connection registry after `websocket_connect`: unchanged on
refusal, a registry `Put` on acceptance — and acceptance requires a
matching token. -/
theorem websocket_connect_connected (st : Store) (connected : AList (AList Conn))
    (ipc : AList Int) (sid mtok ip : String) (ws : Conn) (now : ℚ) :
    (websocket_connect st connected ipc sid mtok ip ws now).connected = connected ∨
    (∃ p, (tokensOfS st sid).find? (fun q : String × String => q.2 == mtok) = some p ∧
      (websocket_connect st connected ipc sid mtok ip ws now).connected =
        aset connected sid (aset ((aget connected sid).getD []) p.1 ws)) := by
  have htk : (match aget (update_activity st sid now).member_tokens sid with
      | some td => td.tokens
      | none => []) = tokensOfS st sid := by
    have := tokensOfS_ua st sid sid now
    unfold tokensOfS at this ⊢
    exact this
  unfold websocket_connect
  dsimp only
  cases h1 : aget (update_activity st sid now).servers sid with
  | none => left; simp [h1]
  | some server =>
    cases h2 : (match aget (update_activity st sid now).member_tokens sid with
        | some td => td.tokens
        | none => []).find? (fun p : String × String => p.2 == mtok) with
    | none => left; simp [h1, h2]
    | some p =>
      by_cases h3 : (tryAdmit ipc ip).1
      · right
        refine ⟨p, ?_, by simp [h1, h2, h3]⟩
        rw [← htk]
        exact h2
      · left
        simp [h1, h2, h3]

theorem processFrame_connected (st : RelayState) (sid uid ip : String) (data : Frame)
    (now : ℚ) : (processFrame st sid uid ip data now).state.connected = st.connected := by
  unfold processFrame
  dsimp only
  by_cases h1 : SIZE_LIMIT < data.size
  · simp [h1]
  · simp only [h1, if_false]
    by_cases h2 : (is_rate_limited ((aget st.rate_limits uid).getD []) now).1 = true
    · simp [h2]
    · simp only [h2, if_false]
      by_cases h3 : (is_rate_limited
          ((aget (aset st.rate_limits uid
            (is_rate_limited ((aget st.rate_limits uid).getD []) now).2) ip).getD [])
          now).1 = true
      · simp [h3]
      · simp [h3]

theorem teardownRegistry_ne (connected : AList (AList Conn)) (sid uid r : String)
    (hr : r ≠ sid) :
    aget (teardownRegistry connected sid uid) r = aget connected r := by
  unfold teardownRegistry
  cases h1 : aget connected sid with
  | none => rfl
  | some room =>
    by_cases h2 : (aget room uid).isSome
    · simp [h2, aget_aset_ne _ _ _ _ hr]
    · simp [h2]

theorem teardownRegistry_self_empty (connected : AList (AList Conn)) (sid uid : String)
    (h : (aget connected sid).getD [] = []) :
    (aget (teardownRegistry connected sid uid) sid).getD [] = [] := by
  unfold teardownRegistry
  cases h1 : aget connected sid with
  | none => rw [h1] at h; simpa [h1] using h
  | some room =>
    rw [h1] at h
    simp only [Option.getD_some] at h
    subst h
    simp [aget, h1]

theorem create_adminOf (st : Store) (connected : AList (AList Conn)) (sid jt : String)
    (now : ℚ) (r : String) :
    (adminOfS (create_server st connected sid jt now).1 r = adminOfS st r) ∨
    (r = sid ∧ adminOfS st r = none ∧
      adminOfS (create_server st connected sid jt now).1 r = none) := by
  unfold create_server
  cases hg : aget st.servers sid with
  | some d =>
    left
    simp [hg]
  | none =>
    by_cases hr : r = sid
    · subst hr
      right
      refine ⟨rfl, ?_, ?_⟩
      · simp [adminOfS, hg]
      · simp [hg, adminOfS, aget_aset_self]
    · left
      simp [hg, adminOfS, aget_aset_ne _ _ _ _ hr]

/-- Invariant: a room whose admin is still unset has issued no member
tokens and has no registered connections.  (Connections authenticate
against issued tokens, and tokens are only issued by joins, which also
set the admin.) -/
def Quiet (sys : Sys) : Prop :=
  ∀ r, adminOf sys r = none →
    tokensOf sys r = [] ∧ (aget sys.connected r).getD [] = []

theorem quiet_create (st : Store) (conn : AList (AList Conn)) (sid jt : String)
    (now : ℚ)
    (hq : ∀ r, adminOfS st r = none →
      tokensOfS st r = [] ∧ (aget conn r).getD [] = [])
    (r : String)
    (hadmin : adminOfS (create_server st conn sid jt now).1 r = none) :
    tokensOfS (create_server st conn sid jt now).1 r = [] ∧
    (aget (create_server st conn sid jt now).2 r).getD [] = [] := by
  unfold create_server at hadmin ⊢
  cases hg : aget st.servers sid with
  | some d =>
    rw [hg] at hadmin
    simp only [Option.isSome_some, if_true] at hadmin ⊢
    exact hq r hadmin
  | none =>
    rw [hg] at hadmin
    simp only [Option.isSome_none, Bool.false_eq_true, if_false] at hadmin ⊢
    have hpre : adminOfS st sid = none := by
      unfold adminOfS
      rw [hg]
    by_cases hr : r = sid
    · subst hr
      constructor
      · simp [tokensOfS, aget_aset_self]
      · rcases hq r hpre with ⟨_, hconn⟩
        by_cases hc : (aget conn r).isSome
        · simp only [hc, if_true]
          exact hconn
        · simp only [hc, Bool.false_eq_true, if_false]
          simp [aget_aset_self]
    · have hadmin' : adminOfS st r = none := by
        unfold adminOfS at hadmin ⊢
        rwa [aget_aset_ne _ _ _ _ hr] at hadmin
      rcases hq r hadmin' with ⟨ht, hc⟩
      refine ⟨?_, ?_⟩
      · unfold tokensOfS at ht ⊢
        rwa [aget_aset_ne _ _ _ _ hr]
      · by_cases hcs : (aget conn sid).isSome
        · simp only [hcs, if_true]
          exact hc
        · simp only [hcs, Bool.false_eq_true, if_false]
          rwa [aget_aset_ne _ _ _ _ hr]

theorem quiet_join (st : Store) (conn : AList (AList Conn)) (sid : String)
    (body : JoinBody) (tok : String) (now : ℚ)
    (hq : ∀ r, adminOfS st r = none →
      tokensOfS st r = [] ∧ (aget conn r).getD [] = [])
    (r : String)
    (hadmin : adminOfS (join_server st conn sid body tok now).store r = none) :
    tokensOfS (join_server st conn sid body tok now).store r = [] ∧
    (aget conn r).getD [] = [] := by
  rcases join_server_split st conn sid body tok now with ⟨hst, _⟩ |
    ⟨server, u, pw, b, hs, hjt, hu, hu', hp, hd⟩
  · rw [hst] at hadmin ⊢
    rw [adminOfS_ua] at hadmin
    rw [tokensOfS_ua]
    exact hq r hadmin
  · have hm := join_checks_passed st conn sid body tok now server u pw b
      hs hjt hu hu' hp hd
    have hstore : (join_server st conn sid body tok now).store =
        joinUpdatedStore st sid server u b tok now := by rw [hm]
    rw [hstore] at hadmin ⊢
    by_cases hr : r = sid
    · subst hr
      exfalso
      have hv : adminOfS (joinUpdatedStore st r server u b tok now) r =
          (if server.admin_user_id = none then some u else server.admin_user_id) := by
        simp [adminOfS, joinUpdatedStore, joinUpdatedDoc, aget_aset_self]
      rw [hv] at hadmin
      cases h2 : server.admin_user_id with
      | none => rw [h2] at hadmin; simp at hadmin
      | some x => rw [h2] at hadmin; simp at hadmin
    · have h1 : aget (joinUpdatedStore st sid server u b tok now).servers r =
          aget st.servers r := by
        unfold joinUpdatedStore
        rw [aget_aset_ne _ _ _ _ hr, ua_servers_ne st sid r now hr]
      have h2 : aget (joinUpdatedStore st sid server u b tok now).member_tokens r =
          aget st.member_tokens r := by
        unfold joinUpdatedStore
        dsimp only
        cases h3 : aget (update_activity st sid now).member_tokens sid with
        | none => rw [ua_tokens_ne st sid r now hr]
        | some td => rw [aget_aset_ne _ _ _ _ hr, ua_tokens_ne st sid r now hr]
      have hadmin' : adminOfS st r = none := by
        unfold adminOfS at hadmin ⊢
        rwa [h1] at hadmin
      rcases hq r hadmin' with ⟨ht, hc⟩
      refine ⟨?_, hc⟩
      unfold tokensOfS at ht ⊢
      rwa [h2]

theorem quiet_connect (st : Store) (conn : AList (AList Conn)) (ipc : AList Int)
    (sid mtok ip : String) (ws : Conn) (now : ℚ)
    (hq : ∀ r, adminOfS st r = none →
      tokensOfS st r = [] ∧ (aget conn r).getD [] = [])
    (r : String)
    (hadmin : adminOfS (websocket_connect st conn ipc sid mtok ip ws now).store r = none) :
    tokensOfS (websocket_connect st conn ipc sid mtok ip ws now).store r = [] ∧
    (aget (websocket_connect st conn ipc sid mtok ip ws now).connected r).getD [] = [] := by
  rw [websocket_connect_store] at hadmin ⊢
  rw [adminOfS_ua] at hadmin
  rw [tokensOfS_ua]
  rcases hq r hadmin with ⟨ht, hc⟩
  refine ⟨ht, ?_⟩
  rcases websocket_connect_connected st conn ipc sid mtok ip ws now with heq |
    ⟨p, hfind, heq⟩
  · rw [heq]
    exact hc
  · by_cases hr : r = sid
    · subst hr
      exfalso
      rw [ht] at hfind
      cases hfind
    · rw [heq, aget_aset_ne _ _ _ _ hr]
      exact hc

theorem quiet_frame (sysconn : AList (AList Conn)) (rl : AList (List ℚ)) (st : Store)
    (sid uid ip : String) (data : Frame) (now : ℚ)
    (hq : ∀ r, adminOfS st r = none →
      tokensOfS st r = [] ∧ (aget sysconn r).getD [] = [])
    (r : String)
    (hadmin : adminOfS
      (if (processFrame ⟨sysconn, rl⟩ sid uid ip data now).touched = true
        then update_activity st sid now else st) r = none) :
    tokensOfS (if (processFrame ⟨sysconn, rl⟩ sid uid ip data now).touched = true
        then update_activity st sid now else st) r = [] ∧
    (aget (processFrame ⟨sysconn, rl⟩ sid uid ip data now).state.connected r).getD []
      = [] := by
  rw [processFrame_connected]
  by_cases htc : (processFrame ⟨sysconn, rl⟩ sid uid ip data now).touched = true
  · rw [if_pos htc] at hadmin ⊢
    rw [adminOfS_ua] at hadmin
    rw [tokensOfS_ua]
    exact hq r hadmin
  · rw [if_neg htc] at hadmin ⊢
    exact hq r hadmin

theorem quiet_disconnect (st : Store) (conn : AList (AList Conn)) (ipc : AList Int)
    (sid uid ip : String) (ws : Conn)
    (hq : ∀ r, adminOfS st r = none →
      tokensOfS st r = [] ∧ (aget conn r).getD [] = [])
    (r : String) (hadmin : adminOfS st r = none) :
    tokensOfS st r = [] ∧
    (aget (websocket_teardown conn ipc sid uid ip ws).1 r).getD [] = [] := by
  rcases hq r hadmin with ⟨ht, hc⟩
  refine ⟨ht, ?_⟩
  by_cases hr : r = sid
  · subst hr
    exact teardownRegistry_self_empty conn r uid hc
  · unfold websocket_teardown
    rw [teardownRegistry_ne conn sid uid r hr]
    exact hc

theorem quiet_step (sys : Sys) (op : Op) (hq : Quiet sys) : Quiet (step sys op).1 := by
  have hq' : ∀ r, adminOfS sys.store r = none →
      tokensOfS sys.store r = [] ∧ (aget sys.connected r).getD [] = [] :=
    fun r h => hq r h
  intro r hadmin
  cases op with
  | create sid jt now => exact quiet_create sys.store sys.connected sid jt now hq' r hadmin
  | join sid body mtok now =>
    exact quiet_join sys.store sys.connected sid body mtok now hq' r hadmin
  | connect sid mtok ip ws now =>
    exact quiet_connect sys.store sys.connected sys.ip_connections sid mtok ip ws now
      hq' r hadmin
  | frame sid uid ip data now =>
    exact quiet_frame sys.connected sys.rate_limits sys.store sid uid ip data now
      hq' r hadmin
  | disconnect sid uid ip ws =>
    exact quiet_disconnect sys.store sys.connected sys.ip_connections sid uid ip ws
      hq' r hadmin

theorem quiet_run (ops : List Op) : Quiet (runOps ops) := by
  have h : ∀ sys, Quiet sys → Quiet (ops.foldl (fun s op => (step s op).1) sys) := by
    induction ops with
    | nil => exact fun sys h => h
    | cons op ops ih => exact fun sys h => ih _ (quiet_step sys op h)
  exact h initSys (fun r _ => ⟨rfl, rfl⟩)

/-- A join whose response is a success, starting from a room with no
admin, sets the admin to the joining member — both in the store and in
the response. -/
theorem join_success_sets_admin (st : Store) (conn : AList (AList Conn)) (sid : String)
    (body : JoinBody) (mtok : String) (now : ℚ) (resp : JoinResponse)
    (hok : (join_server st conn sid body mtok now).result = .ok resp)
    (h0 : adminOfS st sid = none) :
    adminOfS (join_server st conn sid body mtok now).store sid = body.user_id ∧
    resp.admin_user_id = body.user_id := by
  rcases join_server_split st conn sid body mtok now with ⟨_, hnok⟩ |
    ⟨server, u, pw, b, hs, hjt, hu, hu', hp, hd⟩
  · exact absurd hok (hnok resp)
  · have hm := join_checks_passed st conn sid body mtok now server u pw b
      hs hjt hu hu' hp hd
    have hres : (join_server st conn sid body mtok now).result =
        (if (avalues ((aget conn sid).getD [])).all Conn.ok
          then .ok ⟨mtok, joinOthers server u b,
            if server.admin_user_id = none then some u else server.admin_user_id⟩
          else .error .exn) := by rw [hm]
    have hstore : (join_server st conn sid body mtok now).store =
        joinUpdatedStore st sid server u b mtok now := by rw [hm]
    have hadm : server.admin_user_id = none := by
      unfold adminOfS at h0
      rw [hs] at h0
      exact h0
    rw [hok] at hres
    by_cases hall : (avalues ((aget conn sid).getD [])).all Conn.ok = true
    · rw [if_pos hall] at hres
      have hresp : resp = ⟨mtok, joinOthers server u b,
          if server.admin_user_id = none then some u else server.admin_user_id⟩ :=
        Except.ok.inj hres
      constructor
      · rw [hstore, hu]
        simp [adminOfS, joinUpdatedStore, joinUpdatedDoc, aget_aset_self, hadm]
      · rw [hresp, hu]
        simp [hadm]
    · rw [if_neg hall] at hres
      cases hres

/-! ## Claim C4 — admin set exactly once -/

/-- C4: once a room's admin is set it is never changed by any later
operation; the only transition from unset to set is a successful Join,
which assigns the joining member's id (returned as the response's
admin id as well). -/
theorem opt_clash {α : Type} {x : Option α} {a : α} (hn : x = none)
    (hs : x = some a) : False := by
  rw [hn] at hs
  exact Option.noConfusion hs

theorem C4_admin_set_once (ops : List Op) (op : Op) (r : String) :
    (∀ a, adminOf (runOps ops) r = some a → adminOf (step (runOps ops) op).1 r = some a) ∧
    (adminOf (runOps ops) r = none →
      ∀ a, adminOf (step (runOps ops) op).1 r = some a →
        ∃ body mtok now resp, op = Op.join r body mtok now ∧
          (step (runOps ops) op).2 = Out.outJoin (Except.ok resp) ∧
          body.user_id = some a ∧ resp.admin_user_id = some a) ∧
    (∀ sid body mtok now resp, op = Op.join sid body mtok now →
      (step (runOps ops) op).2 = Out.outJoin (Except.ok resp) →
      adminOf (runOps ops) sid = none →
      adminOf (step (runOps ops) op).1 sid = body.user_id ∧
      resp.admin_user_id = body.user_id) := by
  refine ⟨?_, ?_, ?_⟩
  · intro a h
    have h' : adminOfS (runOps ops).store r = some a := h
    cases op with
    | create sid jt now =>
      show adminOfS (create_server (runOps ops).store (runOps ops).connected
        sid jt now).1 r = some a
      rcases create_adminOf (runOps ops).store (runOps ops).connected sid jt now r with
        heq | ⟨hr, hpre, hpost⟩
      · rw [heq]
        exact h'
      · exact absurd h' (fun hh => opt_clash hpre hh)
    | join sid body mtok now =>
      exact join_admin_stable (runOps ops).store (runOps ops).connected sid body mtok now
        r a h'
    | connect sid mtok ip ws now =>
      show adminOfS (websocket_connect (runOps ops).store (runOps ops).connected
        (runOps ops).ip_connections sid mtok ip ws now).store r = some a
      rw [websocket_connect_store, adminOfS_ua]
      exact h'
    | frame sid uid ip data now =>
      show adminOfS
        (if (processFrame ⟨(runOps ops).connected, (runOps ops).rate_limits⟩
            sid uid ip data now).touched = true
          then update_activity (runOps ops).store sid now else (runOps ops).store)
        r = some a
      by_cases ht : (processFrame ⟨(runOps ops).connected, (runOps ops).rate_limits⟩
          sid uid ip data now).touched = true
      · rw [if_pos ht, adminOfS_ua]
        exact h'
      · rw [if_neg ht]
        exact h'
    | disconnect sid uid ip ws => exact h'
  · intro h0 a h1
    have h0' : adminOfS (runOps ops).store r = none := h0
    cases op with
    | create sid jt now =>
      exfalso
      have h1' : adminOfS (create_server (runOps ops).store (runOps ops).connected
          sid jt now).1 r = some a := h1
      rcases create_adminOf (runOps ops).store (runOps ops).connected sid jt now r with
        heq | ⟨hr, hpre, hpost⟩
      · rw [heq] at h1'
        exact opt_clash h0' h1'
      · exact opt_clash hpost h1'
    | connect sid mtok ip ws now =>
      exfalso
      have h1' : adminOfS (websocket_connect (runOps ops).store (runOps ops).connected
          (runOps ops).ip_connections sid mtok ip ws now).store r = some a := h1
      rw [websocket_connect_store, adminOfS_ua] at h1'
      exact opt_clash h0' h1'
    | frame sid uid ip data now =>
      exfalso
      have h1' : adminOfS
          (if (processFrame ⟨(runOps ops).connected, (runOps ops).rate_limits⟩
              sid uid ip data now).touched = true
            then update_activity (runOps ops).store sid now else (runOps ops).store)
          r = some a := h1
      by_cases ht : (processFrame ⟨(runOps ops).connected, (runOps ops).rate_limits⟩
          sid uid ip data now).touched = true
      · rw [if_pos ht, adminOfS_ua] at h1'
        exact opt_clash h0' h1'
      · rw [if_neg ht] at h1'
        exact opt_clash h0' h1'
    | disconnect sid uid ip ws =>
      exact absurd (h1 : adminOfS (runOps ops).store r = some a)
        (fun hh => opt_clash h0' hh)
    | join sid body mtok now =>
      by_cases hr : r = sid
      · subst hr
        rcases join_server_split (runOps ops).store (runOps ops).connected r body
          mtok now with ⟨hst, hnok⟩ | ⟨server, u, pw, b, hs, hjt, hu, hu', hp, hd⟩
        · exfalso
          have h1' : adminOfS (join_server (runOps ops).store (runOps ops).connected
              r body mtok now).store r = some a := h1
          rw [hst, adminOfS_ua] at h1'
          exact opt_clash h0' h1'
        · have hm := join_checks_passed (runOps ops).store (runOps ops).connected
            r body mtok now server u pw b hs hjt hu hu' hp hd
          have hadm : server.admin_user_id = none := by
            unfold adminOfS at h0'
            rw [hs] at h0'
            exact h0'
          have hroom : (aget (runOps ops).connected r).getD [] = [] :=
            (quiet_run ops r h0).2
          have hres : (join_server (runOps ops).store (runOps ops).connected r body
              mtok now).result = .ok ⟨mtok, joinOthers server u b, some u⟩ := by
            have hh : (join_server (runOps ops).store (runOps ops).connected r body
                mtok now).result =
              (if (avalues ((aget (runOps ops).connected r).getD [])).all Conn.ok
                then Except.ok (⟨mtok, joinOthers server u b,
                  if server.admin_user_id = none then some u
                  else server.admin_user_id⟩ : JoinResponse)
                else Except.error HErr.exn) := by rw [hm]
            rw [hh, hroom]
            simp [avalues, hadm]
          have hsv : adminOfS (join_server (runOps ops).store
              (runOps ops).connected r body mtok now).store r = some u := by
            have hh : (join_server (runOps ops).store (runOps ops).connected r body
                mtok now).store = joinUpdatedStore (runOps ops).store r server u b
                mtok now := by rw [hm]
            rw [hh]
            simp [adminOfS, joinUpdatedStore, joinUpdatedDoc, aget_aset_self, hadm]
          have hau : a = u := by
            have h1' : adminOfS (join_server (runOps ops).store (runOps ops).connected
                r body mtok now).store r = some a := h1
            rw [hsv] at h1'
            exact (Option.some.inj h1').symm
          subst hau
          refine ⟨body, mtok, now, ⟨mtok, joinOthers server a b, some a⟩, rfl, ?_, hu, rfl⟩
          show Out.outJoin (join_server (runOps ops).store (runOps ops).connected
            r body mtok now).result =
            Out.outJoin (Except.ok (⟨mtok, joinOthers server a b, some a⟩ : JoinResponse))
          rw [hres]
      · exfalso
        have h1' : adminOfS (join_server (runOps ops).store (runOps ops).connected
            sid body mtok now).store r = some a := h1
        rw [(join_other_room (runOps ops).store (runOps ops).connected sid body mtok now
          r hr).1] at h1'
        exact opt_clash h0' h1'
  · intro sid body mtok now resp hop hout h0
    subst hop
    have hok : (join_server (runOps ops).store (runOps ops).connected sid body mtok
        now).result = .ok resp := by
      have hh : Out.outJoin (join_server (runOps ops).store (runOps ops).connected sid
          body mtok now).result = Out.outJoin (Except.ok resp) := hout
      exact Out.outJoin.inj hh
    have h := join_success_sets_admin (runOps ops).store (runOps ops).connected sid body
      mtok now resp hok (h0 : adminOfS (runOps ops).store sid = none)
    exact ⟨h.1, h.2⟩

/-- C4 witness. -/
theorem C4_admin_set_once_witness :
    adminOf (step (runOps [Op.create "r" "jt" 0])
      (Op.join "r" ⟨some "jt", some "alice",
        some ⟨some 7, some [], some [], some [], some []⟩⟩ "tok" 1)).1 "r" =
      some "alice" := by
  have h := (C4_admin_set_once [Op.create "r" "jt" 0]
    (Op.join "r" ⟨some "jt", some "alice",
      some ⟨some 7, some [], some [], some [], some []⟩⟩ "tok" 1) "r").2.2
    "r" ⟨some "jt", some "alice", some ⟨some 7, some [], some [], some [], some []⟩⟩
    "tok" 1 ⟨"tok", [], some "alice"⟩ rfl (by decide) (by decide)
  exact h.1

end Ephcha
